import Mathlib

/-!
# Verification of the dpbachat multi-provider chat adapter layer

A shallow embedding of the provider adapter layer (`src/services/api-service.ts`),
the conversation orchestrator (`src/services/chat-service.ts`) and the zustand
store (`src/store/index.ts`) of the dpbachat repository, together with theorems
settling the specification claims about them.

Modelling conventions:
* JavaScript strings are Lean `String`s; `toLowerCase` is modelled by `jsToLower`.
* JavaScript `undefined`/absent optional fields are `Option.none`; truthiness of
  a string is tested explicitly (`s ≠ ""`), of a number status explicitly
  (`st ≠ 0`), mirroring each use site.
* `uuidv4()` is modelled by a fresh-id counter carried in the store state;
  `Date.now()` is an explicit `now : Nat` argument.
* Provider HTTP calls are modelled by an `AdapterResult` oracle given as an
  argument: `.ok` for a successful `ApiResponse`, `.err` for an `ApiResponse`
  carrying an error string, `.exn` for a thrown exception.
-/

namespace Dpbachat

/-- A `{role, content}` wire message, as in `ApiCallOptions.messages`
(`src/types/index.ts`). -/
structure ChatMsg where
  role : String
  content : String
deriving DecidableEq, Repr

/-- `ModelType` from `src/types/index.ts`. -/
inductive ModelType
  | OpenAI
  | DeepSeek
  | Gemini
  | Claude
deriving DecidableEq, Repr

/-- `Message` from `src/types/index.ts`; `id : string` (a uuid) is modelled by
a `Nat` drawn from the store's fresh-id counter. -/
structure Message where
  id : Nat
  role : String
  content : String
  timestamp : Nat
deriving DecidableEq, Repr

/-- `Conversation` from `src/types/index.ts`. -/
structure Conversation where
  id : String
  title : String
  messages : List Message
  modelId : String
  presetId : Option String
  createdAt : Nat
  updatedAt : Nat
deriving DecidableEq, Repr

/-- `ModelConfig` from `src/types/index.ts`; the `number` temperature is
modelled as `ℚ` (the adapter layer only selects it, never computes with it). -/
structure ModelConfig where
  id : String
  name : String
  type : ModelType
  apiKey : String
  baseUrl : Option String
  model : String
  temperature : Option ℚ
  maxTokens : Option Nat
  enabled : Bool
deriving DecidableEq, Repr

/-- `Preset` from `src/types/index.ts`. -/
structure Preset where
  id : String
  name : String
  armoringPrompt : String
  systemPrompt : String
deriving DecidableEq, Repr

/-- `ApiCallOptions` from `src/types/index.ts`. -/
structure ApiCallOptions where
  messages : List ChatMsg
  temperature : Option ℚ
  maxTokens : Option Nat
  stream : Option Bool
deriving DecidableEq, Repr

/-- JavaScript `String.prototype.toLowerCase()` (ASCII range, which covers
every role string the program compares). Defined by a structural map over the
characters so that it evaluates inside the kernel. -/
def jsToLower (s : String) : String :=
  ⟨s.data.map Char.toLower⟩

/-- `BaseApiService.normalizeRole` (`api-service.ts` lines 82-85): lowercase
the role and fall back to `"user"` when the lowercased role is not in the
vendor's supported role list. -/
def normalizeRole (role : String) (supportedRoles : List String) : String :=
  if supportedRoles.contains (jsToLower role) then jsToLower role else "user"

/-- Message normalization in `OpenAIService.sendMessage`/`sendMessageStream`
(`api-service.ts` lines 179-182, 227-230). -/
def openAIMessages (messages : List ChatMsg) : List ChatMsg :=
  messages.map fun msg => ⟨normalizeRole msg.role ["user", "system", "assistant"], msg.content⟩

/-- Message normalization in `DeepSeekService.sendMessage`/`sendMessageStream`
(`api-service.ts` lines 319-322, 371-374). -/
def deepSeekNormalize (messages : List ChatMsg) : List ChatMsg :=
  messages.map fun msg => ⟨normalizeRole msg.role ["user", "system", "assistant"], msg.content⟩

/-- The DeepSeek trailing-user-turn rule (`api-service.ts` lines 324-330,
376-382): after normalization, if the list is non-empty and its last message is
not a user message, append a user message `"请回答上述问题。"`. -/
def deepSeekMessages (msgs : List ChatMsg) : List ChatMsg :=
  match (deepSeekNormalize msgs).getLast? with
  | some lastMsg =>
      if lastMsg.role ≠ "user" then
        deepSeekNormalize msgs ++ [⟨"user", "请回答上述问题。"⟩]
      else deepSeekNormalize msgs
  | none => deepSeekNormalize msgs

/-- Message normalization in `ClaudeService.sendMessage`/`sendMessageStream`
(`api-service.ts` lines 722-726, 766-770): Claude supports only the `user` and
`assistant` roles. -/
def claudeMessages (messages : List ChatMsg) : List ChatMsg :=
  messages.map fun msg => ⟨normalizeRole msg.role ["user", "assistant"], msg.content⟩

/-- JavaScript `Array.prototype.join(sep)`. -/
def joinSep (sep : String) : List String → String
  | [] => ""
  | [s] => s
  | s :: rest => s ++ sep ++ joinSep sep (rest)

/-- The role assigned to a non-system message by
`GeminiService.processGeminiMessages`'s full-conversation mode
(`api-service.ts` lines 690-691): assistant maps to `model`, everything else
to `user`. -/
def geminiMsgRole (msg : ChatMsg) : String :=
  if jsToLower msg.role == "assistant" then "model" else "user"

/-- The `forEach` loop over non-system messages in
`GeminiService.processGeminiMessages` (`api-service.ts` lines 686-703):
a filler turn `"继续"` is inserted whenever two consecutive turns would have
the same role, then the message itself is pushed. -/
def geminiLoop (acc : List ChatMsg) (currentRole : String) : List ChatMsg → List ChatMsg
  | [] => acc
  | msg :: rest =>
      geminiLoop
        ((if acc.length > 0 && currentRole == geminiMsgRole msg then
            acc ++ [⟨if geminiMsgRole msg == "user" then "model" else "user", "继续"⟩]
          else acc) ++ [⟨geminiMsgRole msg, msg.content⟩])
        (geminiMsgRole msg) rest

/-- The `systemContents` string of `processGeminiMessages`'s full-conversation
mode (`api-service.ts` lines 676-679): the contents of the system messages
joined with `"\n\n"`. -/
def geminiSystemContents (messages : List ChatMsg) : String :=
  joinSep "\n\n" ((messages.filter fun m => jsToLower m.role == "system").map ChatMsg.content)

/-- The initial `result`/`currentRole` pair of `processGeminiMessages`'s
full-conversation mode (`api-service.ts` lines 673-684): a leading
`[系统指令]` user turn when the joined system contents are truthy. -/
def geminiStart (messages : List ChatMsg) : List ChatMsg × String :=
  if geminiSystemContents messages ≠ "" then
    ([⟨"user", "[系统指令] " ++ geminiSystemContents messages⟩], "user")
  else ([], "")

/-- The `result` list of `processGeminiMessages`'s full-conversation mode
before the trailing-user-turn fix-up (`api-service.ts` lines 673-703). -/
def geminiResult (messages : List ChatMsg) : List ChatMsg :=
  geminiLoop (geminiStart messages).1 (geminiStart messages).2
    (messages.filter fun m => jsToLower m.role != "system")

/-- `GeminiService.processGeminiMessages` (`api-service.ts` lines 635-711).
For at most two messages (the "simple request" mode) the conversation is
collapsed to a single user turn; otherwise the full-conversation mode joins
system messages into a leading `[系统指令]` user turn, alternates user/model
turns and forces a trailing user turn. -/
def processGeminiMessages (messages : List ChatMsg) : List ChatMsg :=
  if messages.length ≤ 2 then
    match (messages.filter fun m => jsToLower m.role == "user").getLast? with
    | some userMsg => [⟨"user", userMsg.content⟩]
    | none =>
      match (messages.filter fun m => jsToLower m.role == "system").getLast? with
      | some sysMsg => [⟨"user", sysMsg.content⟩]
      | none =>
        match messages.getLast? with
        | some lastMsg => [⟨"user", lastMsg.content⟩]
        | none => []
  else
    match (geminiResult messages).getLast? with
    | some lastMsg =>
        if lastMsg.role ≠ "user" then geminiResult messages ++ [⟨"user", "请回答上述问题。"⟩]
        else geminiResult messages
    | none => geminiResult messages

/-! ## Streaming (C4) -/

/-- One line of the line-delimited stream received by
`OpenAIService.sendMessageStream` / `DeepSeekService.sendMessageStream`
(`api-service.ts` lines 286-300, 438-452), abstracted to the outcome of the
per-line handling: a `data: ` line whose JSON parses is `delta c` with
`c = jsonData.choices?.[0]?.delta?.content || ""`; every other line (blank,
`data: [DONE]`, not starting with `data: `, or unparseable) contributes
nothing and is `skip`. -/
inductive StreamLine
  | delta (content : String)
  | skip
deriving DecidableEq, Repr

/-- One line of the Claude SSE stream (`api-service.ts` lines 828-847):
`delta c` for a parsed `content_block_delta` event with delta text `c`,
`stop` for a parsed `message_stop` event, `skip` for every other line. -/
inductive ClaudeStreamLine
  | delta (content : String)
  | stop
  | skip
deriving DecidableEq, Repr

/-- The stream loop of `OpenAIService.sendMessageStream` (`api-service.ts`
lines 263-301; identical in `DeepSeekService.sendMessageStream`): starting
from the accumulated `fullContent`, each non-empty content delta is appended
to `fullContent` and the callback is invoked with `(fullContent, false)`;
when the reader reports `done` the callback is invoked with
`(fullContent, true)`.  The returned list is the sequence of `onStream`
invocations. -/
def streamRunGo (acc : String) : List StreamLine → List (String × Bool)
  | [] => [(acc, true)]
  | .delta c :: rest =>
      if c ≠ "" then (acc ++ c, false) :: streamRunGo (acc ++ c) rest
      else streamRunGo acc rest
  | .skip :: rest => streamRunGo acc rest

/-- The full sequence of `onStream` invocations of
`OpenAIService.sendMessageStream` over a stream of lines. -/
def openAIStreamRun (lines : List StreamLine) : List (String × Bool) :=
  streamRunGo "" lines

/-- The `fullContent` accumulator value after processing the given lines,
starting from `acc`. -/
def deltaConcatFrom (acc : String) : List StreamLine → String
  | [] => acc
  | .delta c :: rest => deltaConcatFrom (acc ++ c) rest
  | .skip :: rest => deltaConcatFrom acc rest

/-- The concatenation, in arrival order, of all content deltas of a stream. -/
def openAIDeltaConcat (lines : List StreamLine) : String :=
  deltaConcatFrom "" lines

/-- The stream loop of `ClaudeService.sendMessageStream` (`api-service.ts`
lines 805-848): like the OpenAI loop, with an additional `(fullContent, true)`
callback on a `message_stop` event. -/
def claudeStreamGo (acc : String) : List ClaudeStreamLine → List (String × Bool)
  | [] => [(acc, true)]
  | .delta c :: rest =>
      if c ≠ "" then (acc ++ c, false) :: claudeStreamGo (acc ++ c) rest
      else claudeStreamGo acc rest
  | .stop :: rest => (acc, true) :: claudeStreamGo acc rest
  | .skip :: rest => claudeStreamGo acc rest

/-- The full sequence of `onStream` invocations of
`ClaudeService.sendMessageStream` over a stream of lines. -/
def claudeStreamRun (lines : List ClaudeStreamLine) : List (String × Bool) :=
  claudeStreamGo "" lines

/-- The Claude `fullContent` accumulator value after processing the given
lines, starting from `acc`. -/
def claudeDeltaConcatFrom (acc : String) : List ClaudeStreamLine → String
  | [] => acc
  | .delta c :: rest => claudeDeltaConcatFrom (acc ++ c) rest
  | .stop :: rest => claudeDeltaConcatFrom acc rest
  | .skip :: rest => claudeDeltaConcatFrom acc rest

/-- The concatenation, in arrival order, of all content deltas of a Claude
stream. -/
def claudeDeltaConcat (lines : List ClaudeStreamLine) : String :=
  claudeDeltaConcatFrom "" lines

/-! ## Store state and operations (`src/store/index.ts`) -/

/-- JavaScript `String.prototype.trim()`: strip whitespace from both ends.
Defined structurally so that it evaluates inside the kernel. -/
def jsTrim (s : String) : String :=
  ⟨((s.data.dropWhile Char.isWhitespace).reverse.dropWhile Char.isWhitespace).reverse⟩

/-- The zustand `AppState` (`store/index.ts` lines 6-47).  `nextId` models the
`uuidv4()` source for message ids. -/
structure AppState where
  conversations : List Conversation
  currentConversationId : Option String
  models : List ModelConfig
  presets : List Preset
  selectedConversations : List String
  batchMode : Bool
  creating : Bool
  nextId : Nat
deriving DecidableEq, Repr

/-- `Partial<Conversation>` as accepted by `updateConversation`
(`store/index.ts` line 20): every field optional. -/
structure ConversationUpdates where
  id : Option String
  title : Option String
  messages : Option (List Message)
  modelId : Option String
  presetId : Option (Option String)
  createdAt : Option Nat
  updatedAt : Option Nat
deriving DecidableEq, Repr

/-- `Partial<ModelConfig>` as accepted by `updateModel`. -/
structure ModelConfigUpdates where
  id : Option String
  name : Option String
  type : Option ModelType
  apiKey : Option String
  baseUrl : Option (Option String)
  model : Option String
  temperature : Option (Option ℚ)
  maxTokens : Option (Option Nat)
  enabled : Option Bool
deriving DecidableEq, Repr

/-- `Partial<Preset>` as accepted by `updatePreset`. -/
structure PresetUpdates where
  id : Option String
  name : Option String
  armoringPrompt : Option String
  systemPrompt : Option String
deriving DecidableEq, Repr

/-- The spread `{ ...conv, ...updates, updatedAt: Date.now() }` of
`updateConversation` (`store/index.ts` lines 84-92): each present field of
`updates` overrides the conversation's, and `updatedAt` is always set to now
(the `updatedAt` of the updates is itself overridden by the trailing
`updatedAt: Date.now()`). -/
def applyConversationUpdates (conv : Conversation) (u : ConversationUpdates) (now : Nat) :
    Conversation :=
  { id := u.id.getD conv.id
    title := u.title.getD conv.title
    messages := u.messages.getD conv.messages
    modelId := u.modelId.getD conv.modelId
    presetId := u.presetId.getD conv.presetId
    createdAt := u.createdAt.getD conv.createdAt
    updatedAt := now }

/-- `createConversation` (`store/index.ts` lines 61-82): prepend a fresh
conversation with an empty message list and select it.  The fresh `uuidv4()`
conversation id is the explicit `newConvId` argument. -/
def createConversation (s : AppState) (title modelId : String) (presetId : Option String)
    (newConvId : String) (now : Nat) : AppState × String :=
  ({ s with
      conversations :=
        ⟨newConvId, title, [], modelId, presetId, now, now⟩ :: s.conversations
      currentConversationId := some newConvId },
   newConvId)

/-- `updateConversation` (`store/index.ts` lines 84-92). -/
def updateConversation (s : AppState) (id : String) (u : ConversationUpdates) (now : Nat) :
    AppState :=
  { s with
    conversations := s.conversations.map fun conv =>
      if conv.id == id then applyConversationUpdates conv u now else conv }

/-- `deleteConversation` (`store/index.ts` lines 94-106). -/
def deleteConversation (s : AppState) (id : String) : AppState :=
  { s with
    conversations := s.conversations.filter fun conv => conv.id != id
    currentConversationId :=
      if s.currentConversationId == some id then none else s.currentConversationId
    selectedConversations := s.selectedConversations.filter fun convId => convId != id }

/-- `deleteMultipleConversations` (`store/index.ts` lines 109-120); the
`ids.includes(state.currentConversationId || '')` test compares against the
empty string when no conversation is current. -/
def deleteMultipleConversations (s : AppState) (ids : List String) : AppState :=
  { s with
    conversations := s.conversations.filter fun conv => !(ids.contains conv.id)
    currentConversationId :=
      if ids.contains (s.currentConversationId.getD "") then none
      else s.currentConversationId
    selectedConversations := []
    batchMode := false }

/-- `setCurrentConversation` (`store/index.ts` lines 122-124). -/
def setCurrentConversation (s : AppState) (id : Option String) : AppState :=
  { s with currentConversationId := id }

/-- `toggleBatchMode` (`store/index.ts` lines 127-132). -/
def toggleBatchMode (s : AppState) (enabled : Bool) : AppState :=
  { s with
    batchMode := enabled
    selectedConversations := if enabled then s.selectedConversations else [] }

/-- `toggleSelectConversation` (`store/index.ts` lines 135-149). -/
def toggleSelectConversation (s : AppState) (id : String) : AppState :=
  if s.selectedConversations.contains id then
    { s with selectedConversations := s.selectedConversations.filter fun convId => convId != id }
  else
    { s with selectedConversations := s.selectedConversations ++ [id] }

/-- `selectAllConversations` (`store/index.ts` lines 152-156). -/
def selectAllConversations (s : AppState) : AppState :=
  { s with selectedConversations := s.conversations.map Conversation.id }

/-- `clearSelectedConversations` (`store/index.ts` lines 159-161). -/
def clearSelectedConversations (s : AppState) : AppState :=
  { s with selectedConversations := [] }

/-- `addMessage` (`store/index.ts` lines 164-183): append one freshly
id-stamped message to the targeted conversation and bump its `updatedAt`. -/
def addMessage (s : AppState) (conversationId role content : String) (now : Nat) : AppState :=
  { s with
    conversations := s.conversations.map fun conv =>
      if conv.id == conversationId then
        { conv with
          messages := conv.messages ++ [⟨s.nextId, role, content, now⟩]
          updatedAt := now }
      else conv
    nextId := s.nextId + 1 }

/-- `addModel` (`store/index.ts` lines 186-194); the `Omit<ModelConfig, "id">`
argument plus the fresh uuid is modelled by overriding the id field. -/
def addModel (s : AppState) (model : ModelConfig) (newId : String) : AppState × String :=
  ({ s with models := s.models ++ [{ model with id := newId }] }, newId)

/-- `updateModel` (`store/index.ts` lines 196-202). -/
def updateModel (s : AppState) (id : String) (u : ModelConfigUpdates) : AppState :=
  { s with
    models := s.models.map fun model =>
      if model.id == id then
        { id := u.id.getD model.id
          name := u.name.getD model.name
          type := u.type.getD model.type
          apiKey := u.apiKey.getD model.apiKey
          baseUrl := u.baseUrl.getD model.baseUrl
          model := u.model.getD model.model
          temperature := u.temperature.getD model.temperature
          maxTokens := u.maxTokens.getD model.maxTokens
          enabled := u.enabled.getD model.enabled }
      else model }

/-- `deleteModel` (`store/index.ts` lines 204-208). -/
def deleteModel (s : AppState) (id : String) : AppState :=
  { s with models := s.models.filter fun model => model.id != id }

/-- `addPreset` (`store/index.ts` lines 211-219). -/
def addPreset (s : AppState) (preset : Preset) (newId : String) : AppState × String :=
  ({ s with presets := s.presets ++ [{ preset with id := newId }] }, newId)

/-- `updatePreset` (`store/index.ts` lines 221-227). -/
def updatePreset (s : AppState) (id : String) (u : PresetUpdates) : AppState :=
  { s with
    presets := s.presets.map fun preset =>
      if preset.id == id then
        { id := u.id.getD preset.id
          name := u.name.getD preset.name
          armoringPrompt := u.armoringPrompt.getD preset.armoringPrompt
          systemPrompt := u.systemPrompt.getD preset.systemPrompt }
      else preset }

/-- `deletePreset` (`store/index.ts` lines 229-236): drop the preset and null
out the `presetId` of every conversation that referenced it. -/
def deletePreset (s : AppState) (id : String) : AppState :=
  { s with
    presets := s.presets.filter fun preset => preset.id != id
    conversations := s.conversations.map fun conv =>
      if conv.presetId == some id then { conv with presetId := none } else conv }

/-- `setCreating` (`store/index.ts` lines 238-240). -/
def setCreating (s : AppState) (creating : Bool) : AppState :=
  { s with creating := creating }

/-- Modelled from the spec: the store's `updateMessageContent`, which
`ChatService.sendMessageStream` calls during streaming
(`chat-service.ts` lines 586, 656), is absent from the store implementation
under `src/store/index.ts`; per the spec it performs the only message mutation
other than appending — "updating the last message's content during streaming",
i.e. replacing the content of the streamed assistant message identified by its
id, leaving everything else unchanged. -/
def updateMessageContent (s : AppState) (conversationId : String) (messageId : Nat)
    (content : String) : AppState :=
  { s with
    conversations := s.conversations.map fun conv =>
      if conv.id == conversationId then
        { conv with
          messages := conv.messages.map fun m =>
            if m.id == messageId then { m with content := content } else m }
      else conv }

/-! ## Error payload model and `extractErrorMessage` (C6) -/

/-- The `error` field of a vendor error payload
(`data.error : { message?: string } | string` in `api-service.ts` lines
15-21): either a string or an object with an optional `message`; for an
object, `stringified` carries its `JSON.stringify` rendering (used by the
chat-service handlers). -/
inductive ErrField
  | str (s : String)
  | obj (message : Option String) (stringified : String)
deriving DecidableEq, Repr

/-- A `response.data` value: `parsed` for an object (or a string that
`JSON.parse`s to one) with its optional `error` and `message` fields;
`unparseable` for a string whose `JSON.parse` throws. -/
inductive RespData
  | parsed (errorField : Option ErrField) (messageField : Option String)
  | unparseable
deriving DecidableEq, Repr

/-- A JavaScript error value as inspected by the error handlers:
`hasMessageProp` is the `"message" in err` guard (`isApiError`),
`isErrorInstance` is `err instanceof Error`, `code`/`respStatus`/`respData`
model `err.code`, `err.response?.status` and `err.response?.data` (with
`none` for absent-or-falsy values; a present status of `0` is falsy where the
code tests truthiness). -/
structure JsError where
  hasMessageProp : Bool
  isErrorInstance : Bool
  message : String
  code : Option String
  hasResponse : Bool
  respStatus : Option Nat
  respData : Option RespData
deriving DecidableEq, Repr

/-- `error.response?.status` (optional chaining). -/
def statusOf (e : JsError) : Option Nat :=
  if e.hasResponse then e.respStatus else none

/-- `error.response?.data` (optional chaining). -/
def respDataOf (e : JsError) : Option RespData :=
  if e.hasResponse then e.respData else none

/-- `error.response?.data?.error` (optional chaining; a string `data` has no
`error` property). -/
def dataErrorOf (e : JsError) : Option ErrField :=
  match respDataOf e with
  | some (.parsed ef _) => ef
  | _ => none

/-- `error.response?.data?.message` (optional chaining). -/
def dataMessageOf (e : JsError) : Option String :=
  match respDataOf e with
  | some (.parsed _ mf) => mf
  | _ => none

/-- The `if (status === 401) ... else if (status === 404) ... else if
(status === 429) ...` shape shared by the status-code dispatches of
`extractErrorMessage` (a truthy status selects one of the three texts, any
other or falsy status falls through to `other`). -/
def statusSwitch (st : Option Nat) (t401 t404 t429 other : String) : String :=
  match st with
  | some 401 => t401
  | some 404 => t404
  | some 429 => t429
  | _ => other

/-- `extractErrorMessage` lines 144-149: the `error instanceof Error`
fallback. -/
def emInstanceFallback (e : JsError) (pfx : String) : String :=
  if e.isErrorInstance then
    pfx ++ " " ++ (if e.message ≠ "" then e.message else "未知错误")
  else pfx ++ " 未知错误"

/-- `extractErrorMessage` lines 129-149: the generic HTTP status section
(no message included) followed by the instance fallback. -/
def emBottom (e : JsError) (pfx : String) : String :=
  statusSwitch (statusOf e)
    (pfx ++ " API密钥无效或已过期")
    (pfx ++ " 模型不存在或API端点错误")
    (pfx ++ " 请求频率限制，请稍后再试")
    (emInstanceFallback e pfx)

/-- `extractErrorMessage` lines 112-126: when the error object's own message
is truthy, status-specific text including the message for 401/404/429,
otherwise the message itself. -/
def emAfterDataMessage (e : JsError) (pfx : String) : String :=
  if e.message ≠ "" then
    statusSwitch (statusOf e)
      (pfx ++ " API密钥无效或已过期 (" ++ e.message ++ ")")
      (pfx ++ " 模型不存在或API端点错误 (" ++ e.message ++ ")")
      (pfx ++ " 请求频率限制，请稍后再试 (" ++ e.message ++ ")")
      e.message
  else emBottom e pfx

/-- `extractErrorMessage` lines 109-111: the `data.message` lookup. -/
def emAfterDataError (e : JsError) (pfx : String) : String :=
  match dataMessageOf e with
  | some m => if m ≠ "" then m else emAfterDataMessage e pfx
  | none => emAfterDataMessage e pfx

/-- `BaseApiService.extractErrorMessage` (`api-service.ts` lines 90-150). -/
def extractErrorMessage (e : JsError) (pfx : String) : String :=
  if e.hasMessageProp then
    match dataErrorOf e with
    | some (.str s) => if s ≠ "" then s else emAfterDataError e pfx
    | some (.obj (some m) _) => if m ≠ "" then m else emAfterDataError e pfx
    | some (.obj none _) => emAfterDataError e pfx
    | none => emAfterDataError e pfx
  else emBottom e pfx

/-- The claim's "vendor payload's error string or error.message field", read
with JavaScript truthiness: the payload error when it is a non-empty string,
or its `message` field when that is a non-empty string. -/
def payloadErrorString (e : JsError) : Option String :=
  match dataErrorOf e with
  | some (.str s) => if s ≠ "" then some s else none
  | some (.obj (some m) _) => if m ≠ "" then some m else none
  | _ => none

/-- The claim's "payload's message field", read with JavaScript truthiness. -/
def payloadMessageString (e : JsError) : Option String :=
  match dataMessageOf e with
  | some m => if m ≠ "" then some m else none
  | none => none

/-- The claim's status-specific friendly text including the original
message (statuses 401, 404, 429), or the message itself otherwise. -/
def statusFriendlyWith (e : JsError) (pfx : String) : String :=
  statusSwitch (statusOf e)
    (pfx ++ " API密钥无效或已过期 (" ++ e.message ++ ")")
    (pfx ++ " 模型不存在或API端点错误 (" ++ e.message ++ ")")
    (pfx ++ " 请求频率限制，请稍后再试 (" ++ e.message ++ ")")
    e.message

/-- The claim's status-specific friendly text without the message, falling
back to a string ending in `未知错误`. -/
def statusFriendlyWithout (e : JsError) (pfx : String) : String :=
  statusSwitch (statusOf e)
    (pfx ++ " API密钥无效或已过期")
    (pfx ++ " 模型不存在或API端点错误")
    (pfx ++ " 请求频率限制，请稍后再试")
    (pfx ++ " 未知错误")

/-- The tail of the claim's priority list, after the payload error lookup. -/
def specRest (e : JsError) (pfx : String) : String :=
  match payloadMessageString e with
  | some m => m
  | none =>
      if e.message ≠ "" then statusFriendlyWith e pfx else statusFriendlyWithout e pfx

/-- C6's description of `extractErrorMessage`, written from the claim's words
(amended): the payload lookups are gated on the error carrying a `message`
property, and "present" means present and non-empty. -/
def extractErrorMessageSpec (e : JsError) (pfx : String) : String :=
  if e.hasMessageProp then
    match payloadErrorString e with
    | some s => s
    | none => specRest e pfx
  else statusFriendlyWithout e pfx

/-! ## Chat service (`src/services/chat-service.ts`) -/

/-- The outcome of one provider `sendMessage` call, supplied as an oracle:
a successful `ApiResponse` content, an `ApiResponse` carrying an `error`
string, or a thrown exception. -/
inductive AdapterResult
  | ok (content : String)
  | err (message : String)
  | exn (error : JsError)
deriving DecidableEq, Repr

/-- An observable action of the chat service: a `store.addMessage` call with
the given role and content, or one provider API call. -/
inductive ChatEvent
  | msg (role content : String)
  | apiCall
deriving DecidableEq, Repr

/-- `${statusCode}` interpolation of a possibly-absent status
(JavaScript renders an absent property as `undefined`). -/
def statusCodeStr (e : JsError) : String :=
  match e.respStatus with
  | some n => toString n
  | none => "undefined"

/-- The friendly per-status text of `ChatService.sendMessage`'s catch handler
(`chat-service.ts` lines 458-472). -/
def chatStatusText (st : Nat) : String :=
  if st == 401 then "API密钥无效或已过期，请更新您的密钥"
  else if st == 404 then "模型不存在或API端点错误，请检查模型名称和API配置"
  else if st == 400 then "请求参数错误，可能是模型配置不正确"
  else if st == 429 then "达到API请求限制，请稍后再试"
  else if 500 ≤ st then "服务器错误，请稍后再试"
  else "请求失败 (" ++ toString st ++ ")"

/-- The payload-derived suffix of `ChatService.sendMessage`'s catch handler
(`chat-service.ts` lines 474-489): an object `error` contributes its
`message` (or its `JSON.stringify` rendering when the message is falsy), a
truthy string `error` contributes itself. -/
def chatPayloadSuffix (d : RespData) : String :=
  match d with
  | .parsed (some (.obj msgOpt strf)) _ =>
      ": " ++ (match msgOpt with
               | some m => if m ≠ "" then m else strf
               | none => strf)
  | .parsed (some (.str s)) _ => if s ≠ "" then ": " ++ s else ""
  | .parsed none _ => ""
  | .unparseable => ""

/-- The catch handler of `ChatService.sendMessage` (`chat-service.ts` lines
432-497): timeout/network codes first, then the status/payload branch, else
the error's own message (or `未知错误` for non-`Error` values). -/
def chatCatchText (e : JsError) : String :=
  if e.code == some "ECONNABORTED" then
    "请求超时，模型生成响应时间过长。请尝试减少输入内容或分批发送消息"
  else if e.code == some "ERR_NETWORK" then
    "网络连接错误，请检查您的网络连接并重试"
  else
    match statusOf e, respDataOf e with
    | some st, some d =>
        if st ≠ 0 then chatStatusText st ++ chatPayloadSuffix d
        else if e.isErrorInstance then e.message else "未知错误"
    | _, _ => if e.isErrorInstance then e.message else "未知错误"

/-- The payload-derived suffix of `sendSingleMessageAndWait`'s catch handler
(`chat-service.ts` lines 198-213): an object `error` contributes its
`JSON.stringify` rendering, a truthy string `error` contributes itself. -/
def sswPayloadSuffix (d : RespData) : String :=
  match d with
  | .parsed (some (.str s)) _ => if s ≠ "" then s else ""
  | .parsed (some (.obj _ strf)) _ => strf
  | .parsed none _ => ""
  | .unparseable => ""

/-- The catch handler of `ChatService.sendSingleMessageAndWait`
(`chat-service.ts` lines 158-221): the response branch (a separate `if`)
overrides the timeout/network text with `请求失败 (status): ` plus the
payload suffix. -/
def sswCatchText (e : JsError) : String :=
  if e.hasMessageProp && e.hasResponse then
    "请求失败 (" ++ statusCodeStr e ++ "): " ++
      (match e.respData with
       | some d => sswPayloadSuffix d
       | none => "")
  else if e.hasMessageProp && e.code == some "ECONNABORTED" then
    "请求超时，模型生成响应时间过长。请尝试减少输入内容或分批发送消息"
  else if e.hasMessageProp && e.code == some "ERR_NETWORK" then
    "网络连接错误，请检查您的网络连接并重试"
  else if e.hasMessageProp then e.message
  else "未知错误"

/-- `ChatService.sendSingleMessageAndWait` (`chat-service.ts` lines 92-222):
find the conversation, find its last user message (returning without an API
call when there is none), check the API key (an invalid key throws and is
caught locally, appending an assistant error message), then perform one
provider call and append the assistant reply (or `错误: `-prefixed error).
Returns the new state, the emitted events, and the unconsumed oracle. -/
def sendSingleMessageAndWait (s : AppState) (conversationId : String) (model : ModelConfig)
    (outcomes : List AdapterResult) (now : Nat) :
    Except String (AppState × List ChatEvent × List AdapterResult) :=
  match s.conversations.find? (fun c => c.id == conversationId) with
  | none => .error "找不到对话"
  | some conversation =>
    match conversation.messages.reverse.find? (fun m => m.role == "user") with
    | none => .ok (s, [], outcomes)
    | some _ =>
      match s.conversations.find? (fun c => c.id == conversationId) with
      | none => .error "找不到更新后的对话"
      | some _ =>
        if jsTrim model.apiKey == "" then
          .ok (addMessage s conversationId "assistant" "错误: 模型API密钥未配置或为空" now,
               [.msg "assistant" "错误: 模型API密钥未配置或为空"], outcomes)
        else
          match outcomes.headD (.err "") with
          | .ok c =>
              .ok (addMessage s conversationId "assistant" c now,
                   [.apiCall, .msg "assistant" c], outcomes.tail)
          | .err emsg =>
              .ok (addMessage s conversationId "assistant" ("错误: " ++ emsg) now,
                   [.apiCall, .msg "assistant" ("错误: " ++ emsg)], outcomes.tail)
          | .exn er =>
              .ok (addMessage s conversationId "assistant" ("错误: " ++ sswCatchText er) now,
                   [.apiCall, .msg "assistant" ("错误: " ++ sswCatchText er)], outcomes.tail)

/-- `ChatService.initializeWithPreset` (`chat-service.ts` lines 18-87):
for a non-null preset, mark creating, send the armoring prompt as a user turn
when non-blank (returning early with an assistant error when the API key is
blank) awaiting the reply, then send the system prompt as a user turn when
non-blank awaiting the reply; exceptions append a `初始化对话失败: ` assistant
message; `creating` is reset in the `finally`. -/
def initializeWithPreset (s : AppState) (conversation : Conversation) (model : ModelConfig)
    (preset : Option Preset) (outcomes : List AdapterResult) (now : Nat) :
    AppState × List ChatEvent :=
  match preset with
  | none => (s, [])
  | some p =>
    let s0 := setCreating s true
    let step1 : AppState × List ChatEvent × Bool × List AdapterResult :=
      if jsTrim p.armoringPrompt ≠ "" then
        let s1 := addMessage s0 conversation.id "user" p.armoringPrompt now
        if jsTrim model.apiKey == "" then
          (addMessage s1 conversation.id "assistant" "错误: 模型API密钥未配置或为空" now,
           [.msg "user" p.armoringPrompt, .msg "assistant" "错误: 模型API密钥未配置或为空"],
           true, outcomes)
        else
          match sendSingleMessageAndWait s1 conversation.id model outcomes now with
          | .ok (s2, ev2, rem) => (s2, .msg "user" p.armoringPrompt :: ev2, false, rem)
          | .error emsg =>
              (addMessage s1 conversation.id "assistant" ("初始化对话失败: " ++ emsg) now,
               [.msg "user" p.armoringPrompt, .msg "assistant" ("初始化对话失败: " ++ emsg)],
               true, outcomes)
      else (s0, [], false, outcomes)
    match step1 with
    | (sA, evA, early, rem) =>
      if early then (setCreating sA false, evA)
      else if jsTrim p.systemPrompt ≠ "" then
        let s3 := addMessage sA conversation.id "user" p.systemPrompt now
        match sendSingleMessageAndWait s3 conversation.id model rem now with
        | .ok (s4, ev4, _) =>
            (setCreating s4 false, evA ++ [.msg "user" p.systemPrompt] ++ ev4)
        | .error emsg =>
            (setCreating
              (addMessage s3 conversation.id "assistant" ("初始化对话失败: " ++ emsg) now)
              false,
             evA ++ [.msg "user" p.systemPrompt, .msg "assistant" ("初始化对话失败: " ++ emsg)])
      else (setCreating sA false, evA)

/-- `ChatService.sendMessage` (`chat-service.ts` lines 355-499): find the
conversation and its model (throwing otherwise), reject a blank API key with
an assistant error message and no API call, otherwise append the user message,
make exactly one provider call, and append either the returned content or a
`错误: `-prefixed assistant message.  The second component counts provider API
calls. -/
def chatSendMessage (s : AppState) (conversationId content : String) (result : AdapterResult)
    (now : Nat) : Except String (AppState × Nat) :=
  match s.conversations.find? (fun c => c.id == conversationId) with
  | none => .error "找不到对话"
  | some conversation =>
    match s.models.find? (fun m => m.id == conversation.modelId) with
    | none => .error "找不到模型配置"
    | some model =>
      if jsTrim model.apiKey == "" then
        .ok (addMessage s conversationId "assistant"
              "错误: 模型API密钥未配置或为空，请先在设置中配置有效的API密钥" now, 0)
      else
        let s1 := addMessage s conversationId "user" content now
        match s1.conversations.find? (fun c => c.id == conversationId) with
        | none => .error "找不到更新后的对话"
        | some _ =>
          match result with
          | .ok c => .ok (addMessage s1 conversationId "assistant" c now, 1)
          | .err e => .ok (addMessage s1 conversationId "assistant" ("错误: " ++ e) now, 1)
          | .exn er =>
              .ok (addMessage s1 conversationId "assistant" ("错误: " ++ chatCatchText er) now, 1)

/-! ## Provider request bodies (C10) -/

/-- The JSON body posted by `OpenAIService.sendMessage` (`api-service.ts`
lines 186-201); `max_tokens` was removed from the request (line 192). -/
structure OpenAIRequestBody where
  model : String
  messages : List ChatMsg
  temperature : ℚ
deriving DecidableEq, Repr

/-- The JSON body posted by `OpenAIService.sendMessageStream` (lines
242-247). -/
structure OpenAIStreamRequestBody where
  model : String
  messages : List ChatMsg
  temperature : ℚ
  stream : Bool
deriving DecidableEq, Repr

/-- The JSON body posted by `DeepSeekService.sendMessage` (lines 336-343). -/
structure DeepSeekRequestBody where
  model : String
  messages : List ChatMsg
  temperature : ℚ
deriving DecidableEq, Repr

/-- The JSON body posted by `DeepSeekService.sendMessageStream` (lines
394-399). -/
structure DeepSeekStreamRequestBody where
  model : String
  messages : List ChatMsg
  temperature : ℚ
  stream : Bool
deriving DecidableEq, Repr

/-- One element of the Gemini `contents` array (`api-service.ts` lines
476-479): a role plus a single text part. -/
structure GeminiContent where
  role : String
  text : String
deriving DecidableEq, Repr

/-- The JSON body posted by `GeminiService.sendMessage` (lines 483-499);
`maxOutputTokens` was removed from `generationConfig` (line 489). -/
structure GeminiRequestBody where
  contents : List GeminiContent
  generationConfigTemperature : ℚ
deriving DecidableEq, Repr

/-- The JSON body posted by `ClaudeService.sendMessage` (lines 730-746);
`max_tokens` was removed from the request (line 736). -/
structure ClaudeRequestBody where
  model : String
  messages : List ChatMsg
  temperature : ℚ
deriving DecidableEq, Repr

/-- The JSON body posted by `ClaudeService.sendMessageStream` (lines
784-789). -/
structure ClaudeStreamRequestBody where
  model : String
  messages : List ChatMsg
  temperature : ℚ
  stream : Bool
deriving DecidableEq, Repr

/-- `options.temperature ?? this.config.temperature ?? 0.7`. -/
def selectedTemperature (options : ApiCallOptions) (config : ModelConfig) : ℚ :=
  options.temperature.getD (config.temperature.getD 0.7)

/-- Request body built by `OpenAIService.sendMessage`. -/
def openAIRequestBody (options : ApiCallOptions) (config : ModelConfig) : OpenAIRequestBody :=
  { model := config.model
    messages := openAIMessages options.messages
    temperature := selectedTemperature options config }

/-- Request body built by `OpenAIService.sendMessageStream`. -/
def openAIStreamRequestBody (options : ApiCallOptions) (config : ModelConfig) :
    OpenAIStreamRequestBody :=
  { model := config.model
    messages := openAIMessages options.messages
    temperature := selectedTemperature options config
    stream := true }

/-- Request body built by `DeepSeekService.sendMessage`. -/
def deepSeekRequestBody (options : ApiCallOptions) (config : ModelConfig) : DeepSeekRequestBody :=
  { model := config.model
    messages := deepSeekMessages options.messages
    temperature := selectedTemperature options config }

/-- Request body built by `DeepSeekService.sendMessageStream`. -/
def deepSeekStreamRequestBody (options : ApiCallOptions) (config : ModelConfig) :
    DeepSeekStreamRequestBody :=
  { model := config.model
    messages := deepSeekMessages options.messages
    temperature := selectedTemperature options config
    stream := true }

/-- Request body built by `GeminiService.sendMessage`. -/
def geminiRequestBody (options : ApiCallOptions) (config : ModelConfig) : GeminiRequestBody :=
  { contents := (processGeminiMessages options.messages).map fun m => ⟨m.role, m.content⟩
    generationConfigTemperature := selectedTemperature options config }

/-- Request body built by `GeminiService.sendMessageStream` (same shape; the
streaming endpoint differs only in the URL). -/
def geminiStreamRequestBody (options : ApiCallOptions) (config : ModelConfig) :
    GeminiRequestBody :=
  { contents := (processGeminiMessages options.messages).map fun m => ⟨m.role, m.content⟩
    generationConfigTemperature := selectedTemperature options config }

/-- Request body built by `ClaudeService.sendMessage`. -/
def claudeRequestBody (options : ApiCallOptions) (config : ModelConfig) : ClaudeRequestBody :=
  { model := config.model
    messages := claudeMessages options.messages
    temperature := selectedTemperature options config }

/-- Request body built by `ClaudeService.sendMessageStream`. -/
def claudeStreamRequestBody (options : ApiCallOptions) (config : ModelConfig) :
    ClaudeStreamRequestBody :=
  { model := config.model
    messages := claudeMessages options.messages
    temperature := selectedTemperature options config
    stream := true }

/-! ## Append-only message predicate (C7) -/

/-- One conversation's messages are unchanged or extended by appending
exactly one message, preserving all earlier messages and their order. -/
def AppendOnlyStep (before after : Conversation) : Prop :=
  after.messages = before.messages ∨ ∃ m, after.messages = before.messages ++ [m]

/-- Every conversation surviving from `s` to `s'` (paired by id) keeps its
message list up to appending at most one message. -/
def MessagesAppendOnly (s s' : AppState) : Prop :=
  ∀ c ∈ s.conversations, ∀ c' ∈ s'.conversations, c.id = c'.id → AppendOnlyStep c c'

/-! ## Helper lemmas -/

theorem find?_eq_head?_filter {α : Type _} (p : α → Bool) :
    ∀ l : List α, l.find? p = (l.filter p).head? := by
  intro l
  induction l with
  | nil => rfl
  | cons a t ih =>
      rw [List.find?_cons, List.filter_cons]
      cases hp : p a with
      | true => rfl
      | false => exact ih

theorem filter_getLast?_eq_reverse_find? {α : Type _} (p : α → Bool) (l : List α) :
    (l.filter p).getLast? = l.reverse.find? p := by
  rw [List.getLast?_eq_head?_reverse, ← List.filter_reverse, find?_eq_head?_filter]

theorem geminiLoop_ne_nil (ms : List ChatMsg) :
    ∀ (acc : List ChatMsg) (cur : String), acc ≠ [] ∨ ms ≠ [] → geminiLoop acc cur ms ≠ [] := by
  induction ms with
  | nil =>
      intro acc cur h
      rcases h with h | h
      · simpa [geminiLoop] using h
      · exact absurd rfl h
  | cons m rest ih =>
      intro acc cur _
      show geminiLoop _ _ _ ≠ []
      simp only [geminiLoop]
      apply ih
      left
      simp

theorem joinSep_length_ge (a b : String) (rest : List String) :
    joinSep "\n\n" (a :: b :: rest) ≠ "" := by
  intro hcontra
  have hstep : joinSep "\n\n" (a :: b :: rest) = a ++ "\n\n" ++ joinSep "\n\n" (b :: rest) := rfl
  have hlen := congrArg String.length (hstep ▸ hcontra)
  rw [String.length_append, String.length_append] at hlen
  have h2 : ("\n\n" : String).length = 2 := rfl
  have h0 : ("" : String).length = 0 := rfl
  rw [h2, h0] at hlen
  omega

theorem filter_complement_eq_self (msgs : List ChatMsg) :
    (msgs.filter fun m => jsToLower m.role != "system") = [] →
      (msgs.filter fun m => jsToLower m.role == "system") = msgs := by
  induction msgs with
  | nil => intro _; rfl
  | cons m t ih =>
      intro h
      rw [List.filter_cons] at h
      cases hm : (jsToLower m.role == "system") with
      | true =>
          have hne : (jsToLower m.role != "system") = false := by
            simp only [bne, hm, Bool.not_true]
          rw [hne] at h
          simp only [Bool.false_eq_true, if_false] at h
          rw [List.filter_cons, hm, if_pos rfl, ih h]
      | false =>
          have hne : (jsToLower m.role != "system") = true := by
            simp only [bne, hm, Bool.not_false]
          rw [hne] at h
          simp at h

theorem geminiResult_ne_nil (msgs : List ChatMsg) (h : 2 < msgs.length) :
    geminiResult msgs ≠ [] := by
  by_cases hns : (msgs.filter fun m => jsToLower m.role != "system") = []
  · have hsys := filter_complement_eq_self msgs hns
    have hcont : geminiSystemContents msgs ≠ "" := by
      unfold geminiSystemContents
      rw [hsys]
      match msgs, h with
      | a :: b :: rest, _ => exact joinSep_length_ge a.content b.content (rest.map ChatMsg.content)
    unfold geminiResult geminiStart
    rw [if_pos hcont, hns]
    simp [geminiLoop]
  · unfold geminiResult
    exact geminiLoop_ne_nil _ _ _ (Or.inr hns)

/-! ## C1: role normalization per adapter -/

/-- C1 (counterexample): the claim "for every input message and every provider
adapter, the role sent to the provider is the lowercased input role when it
belongs to the vendor's accepted role set and `user` otherwise" fails for the
Gemini adapter: on `[user a; assistant b; user c]` the Gemini adapter sends the
assistant message with role `model`, while the claimed rule (Gemini's accepted
role set being `{user, model}`) would send role `user`. -/
theorem c1_counterexample :
    processGeminiMessages [⟨"user", "a"⟩, ⟨"assistant", "b"⟩, ⟨"user", "c"⟩]
        = [⟨"user", "a"⟩, ⟨"model", "b"⟩, ⟨"user", "c"⟩]
      ∧ normalizeRole "assistant" ["user", "model"] = "user"
      ∧ ("model" : String) ≠ "user" := by
  refine ⟨by decide, by decide, by decide⟩

/-- C1 (amended): for the OpenAI, DeepSeek and Claude adapters, the role sent
to the provider for each input message is the lowercased input role when that
lowercased role belongs to the vendor's accepted role set (`{user, system,
assistant}` for OpenAI and DeepSeek, `{user, assistant}` for Claude), and
`user` otherwise; in particular the Claude adapter maps a `system` role message
to role `user`.  (The Gemini adapter instead uses its own mapping, sending
`model` for assistant turns.) -/
theorem c1_role_normalization (msgs : List ChatMsg) (i : Nat) :
    ((openAIMessages msgs)[i]?).map ChatMsg.role
        = (msgs[i]?).map (fun m =>
            if ["user", "system", "assistant"].contains (jsToLower m.role) then jsToLower m.role
            else "user")
      ∧ ((deepSeekNormalize msgs)[i]?).map ChatMsg.role
        = (msgs[i]?).map (fun m =>
            if ["user", "system", "assistant"].contains (jsToLower m.role) then jsToLower m.role
            else "user")
      ∧ (deepSeekMessages msgs).take msgs.length = deepSeekNormalize msgs
      ∧ ((claudeMessages msgs)[i]?).map ChatMsg.role
        = (msgs[i]?).map (fun m =>
            if ["user", "assistant"].contains (jsToLower m.role) then jsToLower m.role else "user")
      ∧ ∀ c : String, claudeMessages [⟨"system", c⟩] = [⟨"user", c⟩] := by
  refine ⟨?_, ?_, ?_, ?_, fun c => rfl⟩
  · cases h : msgs[i]? with
    | none => simp [openAIMessages, List.getElem?_map, h]
    | some m => simp [openAIMessages, List.getElem?_map, h, normalizeRole]
  · cases h : msgs[i]? with
    | none => simp [deepSeekNormalize, List.getElem?_map, h]
    | some m => simp [deepSeekNormalize, List.getElem?_map, h, normalizeRole]
  · have hlen : (deepSeekNormalize msgs).length = msgs.length := by
      simp [deepSeekNormalize]
    cases hl : (deepSeekNormalize msgs).getLast? with
    | none =>
        simp only [deepSeekMessages, hl]
        rw [← hlen, List.take_length]
    | some lastMsg =>
        simp only [deepSeekMessages, hl]
        by_cases hr : lastMsg.role ≠ "user"
        · rw [if_pos hr, ← hlen, List.take_left]
        · rw [if_neg hr, ← hlen, List.take_length]
  · cases h : msgs[i]? with
    | none => simp [claudeMessages, List.getElem?_map, h]
    | some m => simp [claudeMessages, List.getElem?_map, h, normalizeRole]

/-! ## C2: forced trailing user turn -/

/-- C2: for every non-empty input, the DeepSeek adapter's outgoing message
list ends with a user turn — when the last normalized message's role is not
`user`, a user message `"请回答上述问题。"` is appended, otherwise the
normalized list is sent unchanged; and the Gemini adapter's full-conversation
mode (more than two messages) likewise ends its output with a user turn. -/
theorem c2_trailing_user (msgs : List ChatMsg) (h : msgs ≠ []) :
    ((deepSeekMessages msgs).getLast?.map ChatMsg.role = some "user"
      ∧ ∀ lastMsg, (deepSeekNormalize msgs).getLast? = some lastMsg →
          (lastMsg.role ≠ "user" →
              deepSeekMessages msgs = deepSeekNormalize msgs ++ [⟨"user", "请回答上述问题。"⟩])
            ∧ (lastMsg.role = "user" → deepSeekMessages msgs = deepSeekNormalize msgs))
    ∧ ∀ gmsgs : List ChatMsg, 2 < gmsgs.length →
        (processGeminiMessages gmsgs).getLast?.map ChatMsg.role = some "user" := by
  constructor
  · have hne : deepSeekNormalize msgs ≠ [] := by
      simpa [deepSeekNormalize, List.map_eq_nil_iff] using h
    cases hl : (deepSeekNormalize msgs).getLast? with
    | none => exact absurd (List.getLast?_eq_none_iff.mp hl) hne
    | some lastMsg =>
        constructor
        · simp only [deepSeekMessages, hl]
          by_cases hr : lastMsg.role ≠ "user"
          · rw [if_pos hr, List.getLast?_concat]; rfl
          · rw [if_neg hr, hl]
            rw [not_not] at hr
            exact congrArg some hr
        · intro lm hlm
          injection hlm with hlm2
          subst hlm2
          constructor
          · intro hr
            simp only [deepSeekMessages, hl]
            rw [if_pos hr]
          · intro hr
            simp only [deepSeekMessages, hl]
            rw [if_neg (by simp [hr])]
  · intro gmsgs hg
    have hres := geminiResult_ne_nil gmsgs hg
    cases hl : (geminiResult gmsgs).getLast? with
    | none => exact absurd (List.getLast?_eq_none_iff.mp hl) hres
    | some lastMsg =>
        simp only [processGeminiMessages, if_neg (by omega : ¬gmsgs.length ≤ 2), hl]
        by_cases hr : lastMsg.role ≠ "user"
        · rw [if_pos hr, List.getLast?_concat]; rfl
        · rw [if_neg hr, hl]
          rw [not_not] at hr
          exact congrArg some hr

/-- C2 witness: concrete instance — `[assistant y]` gets a trailing user turn
from DeepSeek, and a three-message Gemini conversation ends with a user turn. -/
theorem c2_witness :
    ([⟨"USER", "x"⟩, ⟨"Assistant", "y"⟩] : List ChatMsg) ≠ []
      ∧ (deepSeekMessages [⟨"USER", "x"⟩, ⟨"Assistant", "y"⟩]).getLast?.map ChatMsg.role
          = some "user"
      ∧ (processGeminiMessages [⟨"user", "a"⟩, ⟨"assistant", "b"⟩, ⟨"assistant", "c"⟩]).getLast?.map
          ChatMsg.role = some "user" := by
  have h := c2_trailing_user [⟨"USER", "x"⟩, ⟨"Assistant", "y"⟩] (by decide)
  exact ⟨by decide, h.1.1, h.2 [⟨"user", "a"⟩, ⟨"assistant", "b"⟩, ⟨"assistant", "c"⟩] (by decide)⟩

/-! ## C3: Gemini single-turn collapse -/

/-- C3: for at most two input messages, `processGeminiMessages` collapses the
conversation into a single user-role turn whose content is the content of the
last message whose role is (case-insensitively) `user` if one exists, otherwise
of the last message whose role is `system` if one exists, otherwise of the last
message; an empty input yields an empty list. -/
theorem c3_gemini_single_turn (msgs : List ChatMsg) (h : msgs.length ≤ 2) :
    processGeminiMessages msgs =
      match msgs.reverse.find? (fun m => jsToLower m.role == "user") with
      | some userMsg => [⟨"user", userMsg.content⟩]
      | none =>
        match msgs.reverse.find? (fun m => jsToLower m.role == "system") with
        | some sysMsg => [⟨"user", sysMsg.content⟩]
        | none =>
          match msgs.reverse.head? with
          | some lastMsg => [⟨"user", lastMsg.content⟩]
          | none => [] := by
  unfold processGeminiMessages
  rw [if_pos h, filter_getLast?_eq_reverse_find?, filter_getLast?_eq_reverse_find?,
    List.getLast?_eq_head?_reverse]

/-- C3 witness: a two-message conversation with no user turn collapses to the
last system message's content as a single user turn. -/
theorem c3_witness :
    ([⟨"System", "s"⟩, ⟨"ASSISTANT", "b"⟩] : List ChatMsg).length ≤ 2
      ∧ processGeminiMessages [⟨"System", "s"⟩, ⟨"ASSISTANT", "b"⟩] = [⟨"user", "s"⟩] := by
  refine ⟨by decide, ?_⟩
  have h := c3_gemini_single_turn [⟨"System", "s"⟩, ⟨"ASSISTANT", "b"⟩] (by decide)
  exact h.trans (by decide)

/-! ## C4: cumulative streaming callbacks -/

theorem getLast?_cons_of_ne_nil {α : Type _} (a : α) (l : List α) (h : l ≠ []) :
    (a :: l).getLast? = l.getLast? := by
  cases l with
  | nil => exact absurd rfl h
  | cons b t => exact List.getLast?_cons_cons

theorem deltaConcatFrom_append (a : String) :
    ∀ (ls : List StreamLine) (b : String),
      deltaConcatFrom (a ++ b) ls = a ++ deltaConcatFrom b ls := by
  intro ls
  induction ls with
  | nil => intro b; rfl
  | cons l rest ih =>
      intro b
      cases l with
      | delta c =>
          simp only [deltaConcatFrom]
          rw [String.append_assoc]
          exact ih (b ++ c)
      | skip => exact ih b

theorem deltaConcatFrom_eq (acc : String) (ls : List StreamLine) :
    deltaConcatFrom acc ls = acc ++ openAIDeltaConcat ls := by
  have h := deltaConcatFrom_append acc ls ""
  rwa [String.append_empty] at h

theorem streamRunGo_ne_nil (ls : List StreamLine) : ∀ acc, streamRunGo acc ls ≠ [] := by
  induction ls with
  | nil => intro acc; simp [streamRunGo]
  | cons l rest ih =>
      intro acc
      cases l with
      | delta c =>
          by_cases hc : c ≠ ""
          · simp only [streamRunGo, if_pos hc]
            exact List.cons_ne_nil _ _
          · simp only [streamRunGo, if_neg hc]
            exact ih acc
      | skip =>
          simp only [streamRunGo]
          exact ih acc

theorem streamRunGo_getLast? (ls : List StreamLine) :
    ∀ acc, (streamRunGo acc ls).getLast? = some (deltaConcatFrom acc ls, true) := by
  induction ls with
  | nil => intro acc; rfl
  | cons l rest ih =>
      intro acc
      cases l with
      | delta c =>
          by_cases hc : c ≠ ""
          · simp only [streamRunGo, if_pos hc, deltaConcatFrom]
            rw [getLast?_cons_of_ne_nil _ _ (streamRunGo_ne_nil rest (acc ++ c))]
            exact ih (acc ++ c)
          · have hc' : c = "" := by rwa [ne_eq, not_not] at hc
            subst hc'
            simp only [streamRunGo, if_neg hc, deltaConcatFrom]
            rw [String.append_empty]
            exact ih acc
      | skip =>
          simp only [streamRunGo, deltaConcatFrom]
          exact ih acc

theorem streamRunGo_mem (ls : List StreamLine) :
    ∀ (acc : String) (p : String × Bool), p ∈ streamRunGo acc ls →
      ∃ n, n ≤ ls.length ∧ p.1 = deltaConcatFrom acc (ls.take n) := by
  induction ls with
  | nil =>
      intro acc p hp
      rw [streamRunGo, List.mem_singleton] at hp
      subst hp
      exact ⟨0, Nat.le_refl 0, rfl⟩
  | cons l rest ih =>
      intro acc p hp
      cases l with
      | delta c =>
          by_cases hc : c ≠ ""
          · simp only [streamRunGo, if_pos hc] at hp
            rcases List.mem_cons.mp hp with rfl | hp'
            · exact ⟨1, by simp, rfl⟩
            · obtain ⟨n, hn, hp1⟩ := ih (acc ++ c) p hp'
              refine ⟨n + 1, Nat.succ_le_succ hn, ?_⟩
              rw [List.take_succ_cons]
              exact hp1
          · have hc' : c = "" := by rwa [ne_eq, not_not] at hc
            subst hc'
            simp only [streamRunGo, if_neg hc] at hp
            obtain ⟨n, hn, hp1⟩ := ih acc p hp
            refine ⟨n + 1, Nat.succ_le_succ hn, ?_⟩
            rw [List.take_succ_cons]
            show p.1 = deltaConcatFrom (acc ++ "") (List.take n rest)
            rwa [String.append_empty]
      | skip =>
          simp only [streamRunGo] at hp
          obtain ⟨n, hn, hp1⟩ := ih acc p hp
          refine ⟨n + 1, Nat.succ_le_succ hn, ?_⟩
          rw [List.take_succ_cons]
          exact hp1

theorem streamRunGo_mem_pfx (ls : List StreamLine) (acc : String) (p : String × Bool)
    (hp : p ∈ streamRunGo acc ls) : ∃ t, p.1 = acc ++ t := by
  obtain ⟨n, _, hp1⟩ := streamRunGo_mem ls acc p hp
  exact ⟨openAIDeltaConcat (ls.take n), by rw [hp1, deltaConcatFrom_eq]⟩

theorem streamRunGo_chain (ls : List StreamLine) :
    ∀ acc, List.Chain' (fun a b => ∃ t, b.1 = a.1 ++ t) (streamRunGo acc ls) := by
  induction ls with
  | nil => intro acc; simp [streamRunGo]
  | cons l rest ih =>
      intro acc
      cases l with
      | delta c =>
          by_cases hc : c ≠ ""
          · simp only [streamRunGo, if_pos hc]
            rw [List.chain'_cons']
            refine ⟨?_, ih (acc ++ c)⟩
            intro y hy
            exact streamRunGo_mem_pfx rest (acc ++ c) y (List.mem_of_mem_head? hy)
          · simp only [streamRunGo, if_neg hc]
            exact ih acc
      | skip =>
          simp only [streamRunGo]
          exact ih acc

theorem claudeDeltaConcatFrom_append (a : String) :
    ∀ (ls : List ClaudeStreamLine) (b : String),
      claudeDeltaConcatFrom (a ++ b) ls = a ++ claudeDeltaConcatFrom b ls := by
  intro ls
  induction ls with
  | nil => intro b; rfl
  | cons l rest ih =>
      intro b
      cases l with
      | delta c =>
          simp only [claudeDeltaConcatFrom]
          rw [String.append_assoc]
          exact ih (b ++ c)
      | stop => exact ih b
      | skip => exact ih b

theorem claudeDeltaConcatFrom_eq (acc : String) (ls : List ClaudeStreamLine) :
    claudeDeltaConcatFrom acc ls = acc ++ claudeDeltaConcat ls := by
  have h := claudeDeltaConcatFrom_append acc ls ""
  rwa [String.append_empty] at h

theorem claudeStreamGo_ne_nil (ls : List ClaudeStreamLine) :
    ∀ acc, claudeStreamGo acc ls ≠ [] := by
  induction ls with
  | nil => intro acc; simp [claudeStreamGo]
  | cons l rest ih =>
      intro acc
      cases l with
      | delta c =>
          by_cases hc : c ≠ ""
          · simp only [claudeStreamGo, if_pos hc]
            exact List.cons_ne_nil _ _
          · simp only [claudeStreamGo, if_neg hc]
            exact ih acc
      | stop =>
          simp only [claudeStreamGo]
          exact List.cons_ne_nil _ _
      | skip =>
          simp only [claudeStreamGo]
          exact ih acc

theorem claudeStreamGo_getLast? (ls : List ClaudeStreamLine) :
    ∀ acc, (claudeStreamGo acc ls).getLast? = some (claudeDeltaConcatFrom acc ls, true) := by
  induction ls with
  | nil => intro acc; rfl
  | cons l rest ih =>
      intro acc
      cases l with
      | delta c =>
          by_cases hc : c ≠ ""
          · simp only [claudeStreamGo, if_pos hc, claudeDeltaConcatFrom]
            rw [getLast?_cons_of_ne_nil _ _ (claudeStreamGo_ne_nil rest (acc ++ c))]
            exact ih (acc ++ c)
          · have hc' : c = "" := by rwa [ne_eq, not_not] at hc
            subst hc'
            simp only [claudeStreamGo, if_neg hc, claudeDeltaConcatFrom]
            rw [String.append_empty]
            exact ih acc
      | stop =>
          simp only [claudeStreamGo, claudeDeltaConcatFrom]
          rw [getLast?_cons_of_ne_nil _ _ (claudeStreamGo_ne_nil rest acc)]
          exact ih acc
      | skip =>
          simp only [claudeStreamGo, claudeDeltaConcatFrom]
          exact ih acc

theorem claudeStreamGo_mem (ls : List ClaudeStreamLine) :
    ∀ (acc : String) (p : String × Bool), p ∈ claudeStreamGo acc ls →
      ∃ n, n ≤ ls.length ∧ p.1 = claudeDeltaConcatFrom acc (ls.take n) := by
  induction ls with
  | nil =>
      intro acc p hp
      rw [claudeStreamGo, List.mem_singleton] at hp
      subst hp
      exact ⟨0, Nat.le_refl 0, rfl⟩
  | cons l rest ih =>
      intro acc p hp
      cases l with
      | delta c =>
          by_cases hc : c ≠ ""
          · simp only [claudeStreamGo, if_pos hc] at hp
            rcases List.mem_cons.mp hp with rfl | hp'
            · exact ⟨1, by simp, rfl⟩
            · obtain ⟨n, hn, hp1⟩ := ih (acc ++ c) p hp'
              refine ⟨n + 1, Nat.succ_le_succ hn, ?_⟩
              rw [List.take_succ_cons]
              exact hp1
          · have hc' : c = "" := by rwa [ne_eq, not_not] at hc
            subst hc'
            simp only [claudeStreamGo, if_neg hc] at hp
            obtain ⟨n, hn, hp1⟩ := ih acc p hp
            refine ⟨n + 1, Nat.succ_le_succ hn, ?_⟩
            rw [List.take_succ_cons]
            show p.1 = claudeDeltaConcatFrom (acc ++ "") (List.take n rest)
            rwa [String.append_empty]
      | stop =>
          simp only [claudeStreamGo] at hp
          rcases List.mem_cons.mp hp with rfl | hp'
          · exact ⟨0, Nat.zero_le _, rfl⟩
          · obtain ⟨n, hn, hp1⟩ := ih acc p hp'
            refine ⟨n + 1, Nat.succ_le_succ hn, ?_⟩
            rw [List.take_succ_cons]
            exact hp1
      | skip =>
          simp only [claudeStreamGo] at hp
          obtain ⟨n, hn, hp1⟩ := ih acc p hp
          refine ⟨n + 1, Nat.succ_le_succ hn, ?_⟩
          rw [List.take_succ_cons]
          exact hp1

theorem claudeStreamGo_mem_pfx (ls : List ClaudeStreamLine) (acc : String) (p : String × Bool)
    (hp : p ∈ claudeStreamGo acc ls) : ∃ t, p.1 = acc ++ t := by
  obtain ⟨n, _, hp1⟩ := claudeStreamGo_mem ls acc p hp
  exact ⟨claudeDeltaConcat (ls.take n), by rw [hp1, claudeDeltaConcatFrom_eq]⟩

theorem claudeStreamGo_chain (ls : List ClaudeStreamLine) :
    ∀ acc, List.Chain' (fun a b => ∃ t, b.1 = a.1 ++ t) (claudeStreamGo acc ls) := by
  induction ls with
  | nil => intro acc; simp [claudeStreamGo]
  | cons l rest ih =>
      intro acc
      cases l with
      | delta c =>
          by_cases hc : c ≠ ""
          · simp only [claudeStreamGo, if_pos hc]
            rw [List.chain'_cons']
            refine ⟨?_, ih (acc ++ c)⟩
            intro y hy
            exact claudeStreamGo_mem_pfx rest (acc ++ c) y (List.mem_of_mem_head? hy)
          · simp only [claudeStreamGo, if_neg hc]
            exact ih acc
      | stop =>
          simp only [claudeStreamGo]
          rw [List.chain'_cons']
          refine ⟨?_, ih acc⟩
          intro y hy
          exact claudeStreamGo_mem_pfx rest acc y (List.mem_of_mem_head? hy)
      | skip =>
          simp only [claudeStreamGo]
          exact ih acc

/-- C4: the streaming adapters invoke the callback cumulatively.  For the
OpenAI/DeepSeek loop and for the Claude loop alike: every callback invocation
with completion flag `false` passes the concatenation, in arrival order, of
the content deltas parsed so far (a prefix of the stream); each successive
callback text extends the previous one (so the previous text is a prefix of
the next); and the final callback invocation passes the full concatenation
with completion flag `true`. -/
theorem c4_stream_cumulative (ls : List StreamLine) (cs : List ClaudeStreamLine) :
    ((openAIStreamRun ls).getLast? = some (openAIDeltaConcat ls, true)
      ∧ (∀ p ∈ openAIStreamRun ls, p.2 = false →
          ∃ n, n ≤ ls.length ∧ p.1 = openAIDeltaConcat (ls.take n))
      ∧ List.Chain' (fun a b => ∃ t, b.1 = a.1 ++ t) (openAIStreamRun ls))
    ∧ ((claudeStreamRun cs).getLast? = some (claudeDeltaConcat cs, true)
      ∧ (∀ p ∈ claudeStreamRun cs, p.2 = false →
          ∃ n, n ≤ cs.length ∧ p.1 = claudeDeltaConcat (cs.take n))
      ∧ List.Chain' (fun a b => ∃ t, b.1 = a.1 ++ t) (claudeStreamRun cs)) := by
  refine ⟨⟨streamRunGo_getLast? ls "", ?_, streamRunGo_chain ls ""⟩,
    ⟨claudeStreamGo_getLast? cs "", ?_, claudeStreamGo_chain cs ""⟩⟩
  · intro p hp _
    obtain ⟨n, hn, hp1⟩ := streamRunGo_mem ls "" p hp
    exact ⟨n, hn, hp1⟩
  · intro p hp _
    obtain ⟨n, hn, hp1⟩ := claudeStreamGo_mem cs "" p hp
    exact ⟨n, hn, hp1⟩

/-- C4 witness: on the concrete streams `[delta "a", skip, delta "b"]` and
`[delta "x", stop]` the final callback carries the full concatenation, and the
first `false`-flagged callback text is the concatenation of a prefix of the
deltas. -/
theorem c4_witness :
    (openAIStreamRun [.delta "a", .skip, .delta "b"]).getLast? = some ("ab", true)
      ∧ (∃ n, n ≤ 3 ∧ "a" = openAIDeltaConcat ([StreamLine.delta "a", .skip, .delta "b"].take n))
      ∧ (claudeStreamRun [.delta "x", .stop]).getLast? = some ("x", true) := by
  have h := c4_stream_cumulative [.delta "a", .skip, .delta "b"] [.delta "x", .stop]
  refine ⟨?_, ?_, ?_⟩
  · have h1 := h.1.1
    rw [h1]
    rfl
  · have h2 := h.1.2.1 ("a", false) (by decide) rfl
    simpa using h2
  · have h3 := h.2.1
    rw [h3]
    rfl

/-! ## C6: `extractErrorMessage` priority order -/

/-- C6 (counterexample): the claim's priority order fails as stated "for every
error value": for an error value that does not carry a `message` property but
whose response payload carries the non-empty error string `"boom"`,
`extractErrorMessage` does not return the payload error string — it returns
`"OpenAI 未知错误"` — because the payload lookups are gated on the code's
`isApiError` (`"message" in err`) guard. -/
theorem c6_counterexample :
    dataErrorOf ⟨false, false, "", none, true, some 500, some (.parsed (some (.str "boom")) none)⟩
        = some (.str "boom")
      ∧ extractErrorMessage
          ⟨false, false, "", none, true, some 500, some (.parsed (some (.str "boom")) none)⟩
          "OpenAI"
        = "OpenAI 未知错误"
      ∧ ("OpenAI 未知错误" : String) ≠ "boom" := by
  refine ⟨by decide, by decide, by decide⟩

/-- C6 (amended): for every error value whose shape is realisable in
JavaScript (an `Error` instance always carries a `message` property),
`extractErrorMessage` follows the claim's priority order with the payload
lookups gated on the error carrying a `message` property and "present" read
as present-and-non-empty: the vendor payload's error string or its
`error.message` field; otherwise the payload's `message` field; otherwise,
when the error carries its own non-empty message, status-specific friendly
text for 401/404/429 including that message or the message itself; otherwise
status-specific friendly text without the message; otherwise a string ending
in `未知错误`. -/
theorem c6_extract_priority (e : JsError) (pfx : String)
    (hinst : e.isErrorInstance = true → e.hasMessageProp = true) :
    extractErrorMessage e pfx = extractErrorMessageSpec e pfx := by
  have hspace : pfx ++ " " ++ "未知错误" = pfx ++ " 未知错误" := by
    rw [String.append_assoc]
    exact congrArg (fun t => pfx ++ t) (by decide)
  have hfb : e.hasMessageProp = false ∨ e.message = "" →
      emInstanceFallback e pfx = pfx ++ " 未知错误" := by
    intro h
    unfold emInstanceFallback
    cases hie : e.isErrorInstance with
    | false => rw [if_neg (by simp)]
    | true =>
        have hm : e.message = "" := by
          rcases h with h | h
          · exact absurd (hinst hie) (by simp [h])
          · exact h
        rw [if_pos rfl, hm, if_neg (by simp)]
        exact hspace
  have hbottom : e.hasMessageProp = false ∨ e.message = "" →
      emBottom e pfx = statusFriendlyWithout e pfx := by
    intro h
    unfold emBottom statusFriendlyWithout
    rw [hfb h]
  have hADM : emAfterDataMessage e pfx =
      (if e.message ≠ "" then statusFriendlyWith e pfx else statusFriendlyWithout e pfx) := by
    unfold emAfterDataMessage statusFriendlyWith
    by_cases hmsg : e.message ≠ ""
    · rw [if_pos hmsg, if_pos hmsg]
    · rw [if_neg hmsg, if_neg hmsg]
      exact hbottom (Or.inr (by rwa [ne_eq, not_not] at hmsg))
  have hADE : emAfterDataError e pfx = specRest e pfx := by
    unfold emAfterDataError specRest payloadMessageString
    cases hdm : dataMessageOf e with
    | none => exact hADM
    | some m =>
        by_cases hmne : m ≠ ""
        · simp only [if_pos hmne]
        · simp only [if_neg hmne]
          exact hADM
  unfold extractErrorMessage extractErrorMessageSpec payloadErrorString
  cases hm : e.hasMessageProp with
  | false =>
      rw [if_neg (by simp), if_neg (by simp)]
      exact hbottom (Or.inl hm)
  | true =>
      rw [if_pos rfl, if_pos rfl]
      cases hde : dataErrorOf e with
      | none => exact hADE
      | some ef =>
          cases ef with
          | str s =>
              by_cases hs : s ≠ ""
              · simp only [if_pos hs]
              · simp only [if_neg hs]
                exact hADE
          | obj mo strf =>
              cases mo with
              | none => exact hADE
              | some m =>
                  by_cases hmne : m ≠ ""
                  · simp only [if_pos hmne]
                  · simp only [if_neg hmne]
                    exact hADE

/-- C6 witness: a 401 axios-style error with its own message resolves to the
friendly 401 text including the message, and the code and spec descriptions
agree on it. -/
theorem c6_witness :
    extractErrorMessage ⟨true, true, "oops", none, true, some 401, some (.parsed none none)⟩ "X"
        = extractErrorMessageSpec
            ⟨true, true, "oops", none, true, some 401, some (.parsed none none)⟩ "X"
      ∧ extractErrorMessageSpec
          ⟨true, true, "oops", none, true, some 401, some (.parsed none none)⟩ "X"
        = "X API密钥无效或已过期 (oops)" :=
  ⟨c6_extract_priority ⟨true, true, "oops", none, true, some 401, some (.parsed none none)⟩ "X"
      (fun _ => rfl),
   by decide⟩

/-! ## C9: deletePreset -/

theorem deletePreset_conv_fields (c : Conversation) (pid : String) :
    (if c.presetId == some pid then { c with presetId := none } else c).id = c.id
      ∧ (if c.presetId == some pid then { c with presetId := none } else c).title = c.title
      ∧ (if c.presetId == some pid then { c with presetId := none } else c).messages = c.messages
      ∧ (if c.presetId == some pid then { c with presetId := none } else c).modelId = c.modelId
      ∧ (if c.presetId == some pid then { c with presetId := none } else c).createdAt = c.createdAt
      ∧ (if c.presetId == some pid then { c with presetId := none } else c).updatedAt = c.updatedAt
      ∧ (if c.presetId == some pid then { c with presetId := none } else c).presetId
          = (if c.presetId = some pid then none else c.presetId) := by
  by_cases h : c.presetId = some pid
  · have hb : (c.presetId == some pid) = true := by simp [h]
    simp [hb, h]
  · have hb : (c.presetId == some pid) = false := beq_eq_false_iff_ne.mpr h
    simp [hb, h]

/-- C9: after `deletePreset s pid`, no surviving preset has id `pid` (and the
surviving presets are exactly the others), no conversation's `presetId` equals
`pid` any more, and every conversation keeps its position and all fields —
including its messages — unchanged, except that a `presetId` equal to `pid` is
nulled out. -/
theorem c9_delete_preset (s : AppState) (pid : String) :
    (∀ p ∈ (deletePreset s pid).presets, p.id ≠ pid)
      ∧ (∀ p : Preset, p ∈ (deletePreset s pid).presets ↔ p ∈ s.presets ∧ p.id ≠ pid)
      ∧ (∀ c ∈ (deletePreset s pid).conversations, c.presetId ≠ some pid)
      ∧ (deletePreset s pid).conversations.length = s.conversations.length
      ∧ (∀ i : Nat,
          ((deletePreset s pid).conversations[i]?).map Conversation.id
              = (s.conversations[i]?).map Conversation.id
            ∧ ((deletePreset s pid).conversations[i]?).map Conversation.title
              = (s.conversations[i]?).map Conversation.title
            ∧ ((deletePreset s pid).conversations[i]?).map Conversation.messages
              = (s.conversations[i]?).map Conversation.messages
            ∧ ((deletePreset s pid).conversations[i]?).map Conversation.modelId
              = (s.conversations[i]?).map Conversation.modelId
            ∧ ((deletePreset s pid).conversations[i]?).map Conversation.createdAt
              = (s.conversations[i]?).map Conversation.createdAt
            ∧ ((deletePreset s pid).conversations[i]?).map Conversation.updatedAt
              = (s.conversations[i]?).map Conversation.updatedAt
            ∧ ((deletePreset s pid).conversations[i]?).map Conversation.presetId
              = (s.conversations[i]?).map
                  (fun c => if c.presetId = some pid then none else c.presetId))
      ∧ (deletePreset s pid).models = s.models := by
  refine ⟨?_, ?_, ?_, ?_, ?_, rfl⟩
  · intro p hp
    have h := (List.mem_filter.mp hp).2
    exact bne_iff_ne.mp h
  · intro p
    constructor
    · intro hp
      exact ⟨(List.mem_filter.mp hp).1, bne_iff_ne.mp (List.mem_filter.mp hp).2⟩
    · intro ⟨hp, hne⟩
      exact List.mem_filter.mpr ⟨hp, bne_iff_ne.mpr hne⟩
  · intro c hc
    rcases List.mem_map.mp hc with ⟨c0, _, rfl⟩
    by_cases h : c0.presetId = some pid
    · have hb : (c0.presetId == some pid) = true := by simp [h]
      simp [hb]
    · have hb : (c0.presetId == some pid) = false := beq_eq_false_iff_ne.mpr h
      simp [hb, h]
  · exact List.length_map _ _
  · intro i
    cases hc : s.conversations[i]? with
    | none =>
        simp [deletePreset, List.getElem?_map, hc]
    | some c =>
        have hfields := deletePreset_conv_fields c pid
        simp only [deletePreset, List.getElem?_map, hc, Option.map_some']
        exact ⟨congrArg _ hfields.1, congrArg _ hfields.2.1, congrArg _ hfields.2.2.1,
          congrArg _ hfields.2.2.2.1, congrArg _ hfields.2.2.2.2.1,
          congrArg _ hfields.2.2.2.2.2.1, congrArg _ hfields.2.2.2.2.2.2⟩

/-- C9 witness: a concrete store with one referencing and one other
conversation. -/
theorem c9_witness :
    (deletePreset
        ⟨[⟨"c1", "t1", [⟨0, "user", "hi", 1⟩], "m1", some "p1", 0, 1⟩,
          ⟨"c2", "t2", [], "m1", some "p2", 0, 1⟩],
         none, [], [⟨"p1", "n", "arm", "sys"⟩], [], false, false, 1⟩ "p1").presets = []
      ∧ (deletePreset
        ⟨[⟨"c1", "t1", [⟨0, "user", "hi", 1⟩], "m1", some "p1", 0, 1⟩,
          ⟨"c2", "t2", [], "m1", some "p2", 0, 1⟩],
         none, [], [⟨"p1", "n", "arm", "sys"⟩], [], false, false, 1⟩ "p1").conversations
        = [⟨"c1", "t1", [⟨0, "user", "hi", 1⟩], "m1", none, 0, 1⟩,
           ⟨"c2", "t2", [], "m1", some "p2", 0, 1⟩]
      ∧ ∀ c ∈ (deletePreset
          ⟨[⟨"c1", "t1", [⟨0, "user", "hi", 1⟩], "m1", some "p1", 0, 1⟩,
            ⟨"c2", "t2", [], "m1", some "p2", 0, 1⟩],
           none, [], [⟨"p1", "n", "arm", "sys"⟩], [], false, false, 1⟩ "p1").conversations,
          c.presetId ≠ some "p1" := by
  refine ⟨by decide, by decide, ?_⟩
  exact (c9_delete_preset
    ⟨[⟨"c1", "t1", [⟨0, "user", "hi", 1⟩], "m1", some "p1", 0, 1⟩,
      ⟨"c2", "t2", [], "m1", some "p2", 0, 1⟩],
     none, [], [⟨"p1", "n", "arm", "sys"⟩], [], false, false, 1⟩ "p1").2.2.1

/-! ## C10: temperature selection and omitted max tokens -/

/-- C10: in every adapter's request body (OpenAI, DeepSeek, Gemini, Claude;
non-streaming and streaming), the temperature equals `options.temperature`
when defined, otherwise the model config's temperature when defined, otherwise
`0.7`; and the request body is independent of the `maxTokens` of both the call
options and the model config (no max-tokens field is sent). -/
theorem c10_request_shaping (options : ApiCallOptions) (config : ModelConfig) :
    ((openAIRequestBody options config).temperature
        = (match options.temperature with
           | some t => t
           | none =>
             match config.temperature with
             | some t => t
             | none => (0.7 : ℚ))
      ∧ (deepSeekRequestBody options config).temperature
        = (match options.temperature with
           | some t => t
           | none =>
             match config.temperature with
             | some t => t
             | none => (0.7 : ℚ))
      ∧ (geminiRequestBody options config).generationConfigTemperature
        = (match options.temperature with
           | some t => t
           | none =>
             match config.temperature with
             | some t => t
             | none => (0.7 : ℚ))
      ∧ (claudeRequestBody options config).temperature
        = (match options.temperature with
           | some t => t
           | none =>
             match config.temperature with
             | some t => t
             | none => (0.7 : ℚ))
      ∧ (openAIStreamRequestBody options config).temperature
        = (openAIRequestBody options config).temperature
      ∧ (deepSeekStreamRequestBody options config).temperature
        = (deepSeekRequestBody options config).temperature
      ∧ (geminiStreamRequestBody options config).generationConfigTemperature
        = (geminiRequestBody options config).generationConfigTemperature
      ∧ (claudeStreamRequestBody options config).temperature
        = (claudeRequestBody options config).temperature)
    ∧ ∀ (mt mt' : Option Nat),
        (openAIRequestBody { options with maxTokens := mt } { config with maxTokens := mt' }
            = openAIRequestBody options config)
          ∧ (openAIStreamRequestBody { options with maxTokens := mt }
                { config with maxTokens := mt' }
              = openAIStreamRequestBody options config)
          ∧ (deepSeekRequestBody { options with maxTokens := mt } { config with maxTokens := mt' }
              = deepSeekRequestBody options config)
          ∧ (deepSeekStreamRequestBody { options with maxTokens := mt }
                { config with maxTokens := mt' }
              = deepSeekStreamRequestBody options config)
          ∧ (geminiRequestBody { options with maxTokens := mt } { config with maxTokens := mt' }
              = geminiRequestBody options config)
          ∧ (geminiStreamRequestBody { options with maxTokens := mt }
                { config with maxTokens := mt' }
              = geminiStreamRequestBody options config)
          ∧ (claudeRequestBody { options with maxTokens := mt } { config with maxTokens := mt' }
              = claudeRequestBody options config)
          ∧ (claudeStreamRequestBody { options with maxTokens := mt }
                { config with maxTokens := mt' }
              = claudeStreamRequestBody options config) := by
  have h : selectedTemperature options config
      = (match options.temperature with
         | some t => t
         | none =>
           match config.temperature with
           | some t => t
           | none => (0.7 : ℚ)) := by
    unfold selectedTemperature
    cases options.temperature with
    | some t => rfl
    | none => cases config.temperature with
      | some t => rfl
      | none => rfl
  exact ⟨⟨h, h, h, h, rfl, rfl, rfl, rfl⟩,
    fun mt mt' => ⟨rfl, rfl, rfl, rfl, rfl, rfl, rfl, rfl⟩⟩

/-! ## C5: error surfacing in `ChatService.sendMessage` -/

theorem find?_addMessage (s : AppState) (cid role content : String) (now : Nat) :
    (addMessage s cid role content now).conversations.find? (fun c => c.id == cid)
      = (s.conversations.find? (fun c => c.id == cid)).map
          (fun conv => { conv with
            messages := conv.messages ++ [⟨s.nextId, role, content, now⟩]
            updatedAt := now }) := by
  unfold addMessage
  rw [List.find?_map]
  have hcomp : ((fun c : Conversation => c.id == cid) ∘ (fun conv : Conversation =>
      if conv.id == cid then
        { conv with
          messages := conv.messages ++ [⟨s.nextId, role, content, now⟩]
          updatedAt := now }
      else conv)) = fun c : Conversation => c.id == cid := by
    funext c
    cases h : c.id == cid with
    | true => simp [Function.comp, h]
    | false => simp [Function.comp, h]
  rw [hcomp]
  cases hf : s.conversations.find? (fun c => c.id == cid) with
  | none => rfl
  | some conv =>
      have hp := List.find?_some hf
      rw [Option.map_some', Option.map_some', if_pos hp]

theorem find?_addMessage_some (s : AppState) (cid role content : String) (now : Nat)
    (conv : Conversation)
    (h : s.conversations.find? (fun c => c.id == cid) = some conv) :
    (addMessage s cid role content now).conversations.find? (fun c => c.id == cid)
      = some { conv with
          messages := conv.messages ++ [⟨s.nextId, role, content, now⟩]
          updatedAt := now } := by
  rw [find?_addMessage, h, Option.map_some']

/-- C5: on an existing conversation whose model has a non-blank API key,
`ChatService.sendMessage` makes exactly one provider API call; it appends the
user message followed by exactly one assistant message, which carries the
returned content on success and a content starting with `错误: ` when the
adapter returns an error or throws. -/
theorem c5_send_error_surface (s : AppState) (cid content : String) (result : AdapterResult)
    (now : Nat) (conversation : Conversation) (model : ModelConfig)
    (hconv : s.conversations.find? (fun c => c.id == cid) = some conversation)
    (hmodel : s.models.find? (fun m => m.id == conversation.modelId) = some model)
    (hkey : jsTrim model.apiKey ≠ "") :
    ∃ s' conv',
      chatSendMessage s cid content result now = .ok (s', 1)
        ∧ s'.conversations.find? (fun c => c.id == cid) = some conv'
        ∧ ∃ userMsg asstMsg : Message,
            conv'.messages = conversation.messages ++ [userMsg, asstMsg]
              ∧ userMsg.role = "user" ∧ userMsg.content = content
              ∧ asstMsg.role = "assistant"
              ∧ (match result with
                 | .ok c => asstMsg.content = c
                 | .err e => asstMsg.content = "错误: " ++ e ∧ ∃ t, asstMsg.content = "错误: " ++ t
                 | .exn er => asstMsg.content = "错误: " ++ chatCatchText er
                     ∧ ∃ t, asstMsg.content = "错误: " ++ t) := by
  have hkbf : (jsTrim model.apiKey == "") = false := beq_eq_false_iff_ne.mpr hkey
  have h1 := find?_addMessage_some s cid "user" content now conversation hconv
  cases result with
  | ok c =>
      have h2 := find?_addMessage_some (addMessage s cid "user" content now) cid "assistant" c
        now _ h1
      refine ⟨_, _, ?_, h2, ⟨s.nextId, "user", content, now⟩,
        ⟨(addMessage s cid "user" content now).nextId, "assistant", c, now⟩, ?_, rfl, rfl, rfl, rfl⟩
      · simp only [chatSendMessage, hconv, hmodel, hkbf, Bool.false_eq_true, if_false, h1]
      · simp
  | err e =>
      have h2 := find?_addMessage_some (addMessage s cid "user" content now) cid "assistant"
        ("错误: " ++ e) now _ h1
      refine ⟨_, _, ?_, h2, ⟨s.nextId, "user", content, now⟩,
        ⟨(addMessage s cid "user" content now).nextId, "assistant", "错误: " ++ e, now⟩,
        ?_, rfl, rfl, rfl, rfl, e, rfl⟩
      · simp only [chatSendMessage, hconv, hmodel, hkbf, Bool.false_eq_true, if_false, h1]
      · simp
  | exn er =>
      have h2 := find?_addMessage_some (addMessage s cid "user" content now) cid "assistant"
        ("错误: " ++ chatCatchText er) now _ h1
      refine ⟨_, _, ?_, h2, ⟨s.nextId, "user", content, now⟩,
        ⟨(addMessage s cid "user" content now).nextId, "assistant",
          "错误: " ++ chatCatchText er, now⟩,
        ?_, rfl, rfl, rfl, rfl, chatCatchText er, rfl⟩
      · simp only [chatSendMessage, hconv, hmodel, hkbf, Bool.false_eq_true, if_false, h1]
      · simp

/-- C5 witness: a concrete conversation and model, with the adapter returning
the error string `boom`. -/
theorem c5_witness :
    ∃ s' conv',
      chatSendMessage
          ⟨[⟨"c1", "t", [], "m1", none, 0, 0⟩], none,
           [⟨"m1", "n", ModelType.OpenAI, "key", none, "gpt", none, none, true⟩],
           [], [], false, false, 0⟩
          "c1" "hi" (.err "boom") 5 = .ok (s', 1)
        ∧ s'.conversations.find? (fun c => c.id == "c1") = some conv'
        ∧ ∃ userMsg asstMsg : Message,
            conv'.messages = ([] : List Message) ++ [userMsg, asstMsg]
              ∧ userMsg.role = "user" ∧ userMsg.content = "hi"
              ∧ asstMsg.role = "assistant"
              ∧ (asstMsg.content = "错误: " ++ "boom"
                  ∧ ∃ t, asstMsg.content = "错误: " ++ t) :=
  c5_send_error_surface
    ⟨[⟨"c1", "t", [], "m1", none, 0, 0⟩], none,
     [⟨"m1", "n", ModelType.OpenAI, "key", none, "gpt", none, none, true⟩],
     [], [], false, false, 0⟩
    "c1" "hi" (.err "boom") 5 ⟨"c1", "t", [], "m1", none, 0, 0⟩
    ⟨"m1", "n", ModelType.OpenAI, "key", none, "gpt", none, none, true⟩
    (by decide) (by decide) (by decide)

/-! ## C7: append-only message lists across store operations -/

theorem uniqueIds_eq {l : List Conversation} (hnd : (l.map Conversation.id).Nodup)
    {c d : Conversation} (hc : c ∈ l) (hd : d ∈ l) (hid : c.id = d.id) : c = d :=
  List.inj_on_of_nodup_map hnd hc hd hid

theorem mao_of_eq_conversations (s s' : AppState)
    (hnd : (s.conversations.map Conversation.id).Nodup)
    (h : s'.conversations = s.conversations) : MessagesAppendOnly s s' := by
  intro c hc c' hc' hid
  rw [h] at hc'
  rw [uniqueIds_eq hnd hc hc' hid]
  left
  rfl

theorem mao_of_filter (s s' : AppState) (p : Conversation → Bool)
    (hnd : (s.conversations.map Conversation.id).Nodup)
    (h : s'.conversations = s.conversations.filter p) : MessagesAppendOnly s s' := by
  intro c hc c' hc' hid
  rw [h] at hc'
  have hc'' := (List.mem_filter.mp hc').1
  rw [uniqueIds_eq hnd hc hc'' hid]
  left
  rfl

theorem mao_of_map (s s' : AppState) (g : Conversation → Conversation)
    (hnd : (s.conversations.map Conversation.id).Nodup)
    (hgid : ∀ c, (g c).id = c.id) (hstep : ∀ c, AppendOnlyStep c (g c))
    (h : s'.conversations = s.conversations.map g) : MessagesAppendOnly s s' := by
  intro c hc c' hc' hcid
  rw [h] at hc'
  rcases List.mem_map.mp hc' with ⟨d, hd, rfl⟩
  have hcd : c = d := uniqueIds_eq hnd hc hd (by rw [hcid, hgid d])
  subst hcd
  exact hstep c

/-- C7 (counterexample): `updateConversation` is a store operation that can
replace a surviving conversation's message list wholesale — passing
`{ messages: [] }` empties the list, which is neither "unchanged" nor
"extended by appending exactly one message". -/
theorem c7_counterexample :
    (((⟨[⟨"c1", "t", [⟨0, "user", "hi", 1⟩], "m1", none, 0, 1⟩],
          none, [], [], [], false, false, 1⟩ : AppState)).conversations.map
        Conversation.id).Nodup
      ∧ ¬ MessagesAppendOnly
          ⟨[⟨"c1", "t", [⟨0, "user", "hi", 1⟩], "m1", none, 0, 1⟩],
           none, [], [], [], false, false, 1⟩
          (updateConversation
            ⟨[⟨"c1", "t", [⟨0, "user", "hi", 1⟩], "m1", none, 0, 1⟩],
             none, [], [], [], false, false, 1⟩
            "c1" ⟨none, none, some [], none, none, none, none⟩ 9) := by
  constructor
  · decide
  · intro h
    have h2 := h ⟨"c1", "t", [⟨0, "user", "hi", 1⟩], "m1", none, 0, 1⟩ (by decide)
      ⟨"c1", "t", [], "m1", none, 0, 9⟩ (by decide) rfl
    obtain h2 | ⟨m, hm⟩ := h2
    · exact absurd h2 (by decide)
    · simp at hm

/-- C7 (amended): every store operation except `updateConversation` leaves
each surviving conversation's message list (paired by conversation id, ids
being unique) either unchanged or extended by appending exactly one message at
the end; `updateConversation` does so whenever its updates contain neither a
`messages` nor an `id` field (no call site in the repository passes either —
`updateConversation` is never called); and the only other message mutation is
the store's `updateMessageContent` used during streaming, which preserves
every message's id, role, timestamp, order and count, changing only the
content of the targeted message. -/
theorem c7_append_only (s : AppState)
    (hnd : (s.conversations.map Conversation.id).Nodup)
    (title modelId : String) (presetId : Option String) (newConvId : String) (now : Nat)
    (uid : String) (u : ConversationUpdates) (did : String) (ids : List String)
    (ocid : Option String) (enabled : Bool) (tid : String)
    (cid role content : String) (m : ModelConfig) (newMid mid : String)
    (mu : ModelConfigUpdates) (p : Preset) (newPid pid : String) (pu : PresetUpdates)
    (b : Bool) (mcid : String) (msgId : Nat) (newContent : String) :
    ((∀ c ∈ s.conversations, c.id ≠ newConvId) →
        MessagesAppendOnly s (createConversation s title modelId presetId newConvId now).1)
      ∧ (u.messages = none → u.id = none →
          MessagesAppendOnly s (updateConversation s uid u now))
      ∧ MessagesAppendOnly s (deleteConversation s did)
      ∧ MessagesAppendOnly s (deleteMultipleConversations s ids)
      ∧ MessagesAppendOnly s (setCurrentConversation s ocid)
      ∧ MessagesAppendOnly s (toggleBatchMode s enabled)
      ∧ MessagesAppendOnly s (toggleSelectConversation s tid)
      ∧ MessagesAppendOnly s (selectAllConversations s)
      ∧ MessagesAppendOnly s (clearSelectedConversations s)
      ∧ MessagesAppendOnly s (addMessage s cid role content now)
      ∧ MessagesAppendOnly s (addModel s m newMid).1
      ∧ MessagesAppendOnly s (updateModel s mid mu)
      ∧ MessagesAppendOnly s (deleteModel s mid)
      ∧ MessagesAppendOnly s (addPreset s p newPid).1
      ∧ MessagesAppendOnly s (updatePreset s pid pu)
      ∧ MessagesAppendOnly s (deletePreset s pid)
      ∧ MessagesAppendOnly s (setCreating s b)
      ∧ (∀ c ∈ s.conversations,
          ∀ c' ∈ (updateMessageContent s mcid msgId newContent).conversations,
            c.id = c'.id →
              c'.messages.length = c.messages.length
                ∧ ∀ i : Nat,
                    (c'.messages[i]?).map Message.id = (c.messages[i]?).map Message.id
                      ∧ (c'.messages[i]?).map Message.role = (c.messages[i]?).map Message.role
                      ∧ (c'.messages[i]?).map Message.timestamp
                        = (c.messages[i]?).map Message.timestamp
                      ∧ ((c'.messages[i]?).map Message.content
                            = (c.messages[i]?).map Message.content
                          ∨ (c'.messages[i]?).map Message.content = some newContent)) := by
  refine ⟨?_, ?_, ?_, ?_, ?_, ?_, ?_, ?_, ?_, ?_, ?_, ?_, ?_, ?_, ?_, ?_, ?_, ?_⟩
  · intro hfresh c hc c' hc' hid
    rcases List.mem_cons.mp hc' with rfl | hc''
    · exact absurd hid (hfresh c hc)
    · rw [uniqueIds_eq hnd hc hc'' hid]
      left
      rfl
  · intro humsg huid
    refine mao_of_map s _ _ hnd ?_ ?_ rfl
    · intro c
      by_cases h : (c.id == uid) = true
      · simp only [h, if_true, applyConversationUpdates, huid, Option.getD_none]
      · simp only [h, Bool.false_eq_true, if_false]
    · intro c
      by_cases h : (c.id == uid) = true
      · left
        simp only [h, if_true, applyConversationUpdates, humsg, Option.getD_none]
      · left
        simp only [h, Bool.false_eq_true, if_false]
  · exact mao_of_filter s _ _ hnd rfl
  · exact mao_of_filter s _ _ hnd rfl
  · exact mao_of_eq_conversations s _ hnd rfl
  · exact mao_of_eq_conversations s _ hnd rfl
  · refine mao_of_eq_conversations s _ hnd ?_
    unfold toggleSelectConversation
    split <;> rfl
  · exact mao_of_eq_conversations s _ hnd rfl
  · exact mao_of_eq_conversations s _ hnd rfl
  · refine mao_of_map s _ _ hnd ?_ ?_ rfl
    · intro c
      by_cases h : (c.id == cid) = true
      · simp only [h, if_true]
      · simp only [h, Bool.false_eq_true, if_false]
    · intro c
      by_cases h : (c.id == cid) = true
      · right
        exact ⟨⟨s.nextId, role, content, now⟩, by simp only [h, if_true]⟩
      · left
        simp only [h, Bool.false_eq_true, if_false]
  · exact mao_of_eq_conversations s _ hnd rfl
  · exact mao_of_eq_conversations s _ hnd rfl
  · exact mao_of_eq_conversations s _ hnd rfl
  · exact mao_of_eq_conversations s _ hnd rfl
  · exact mao_of_eq_conversations s _ hnd rfl
  · refine mao_of_map s _ _ hnd ?_ ?_ rfl
    · intro c
      by_cases h : (c.presetId == some pid) = true
      · simp only [h, if_true]
      · simp only [h, Bool.false_eq_true, if_false]
    · intro c
      by_cases h : (c.presetId == some pid) = true
      · left
        simp only [h, if_true]
      · left
        simp only [h, Bool.false_eq_true, if_false]
  · exact mao_of_eq_conversations s _ hnd rfl
  · intro c hc c' hc' hid
    unfold updateMessageContent at hc'
    rcases List.mem_map.mp hc' with ⟨d, hd, rfl⟩
    have hgid : ∀ x : Conversation,
        ((if x.id == mcid then
            { x with messages := x.messages.map fun msg =>
                if msg.id == msgId then { msg with content := newContent } else msg }
          else x) : Conversation).id = x.id := by
      intro x
      by_cases h : (x.id == mcid) = true
      · simp only [h, if_true]
      · simp only [h, Bool.false_eq_true, if_false]
    have hcd : c = d := uniqueIds_eq hnd hc hd (by rw [hid, hgid d])
    subst hcd
    by_cases h : (c.id == mcid) = true
    · rw [if_pos h]
      constructor
      · exact List.length_map _ _
      · intro i
        rw [List.getElem?_map]
        cases hm : c.messages[i]? with
        | none => simp
        | some msg =>
            by_cases hmsg : (msg.id == msgId) = true
            · have hp := beq_iff_eq.mp hmsg
              simp [hmsg, hp]
            · have hp : msg.id ≠ msgId := by simpa using hmsg
              simp [hmsg, hp]
    · rw [if_neg h]
      exact ⟨rfl, fun i => ⟨rfl, rfl, rfl, Or.inl rfl⟩⟩

/-- C7 witness: on a concrete one-conversation store, `addMessage` and a
messages-free `updateConversation` both satisfy the append-only property. -/
theorem c7_witness :
    MessagesAppendOnly
        ⟨[⟨"c1", "t", [⟨0, "user", "hi", 1⟩], "m1", none, 0, 1⟩],
         none, [], [], [], false, false, 1⟩
        (addMessage
          ⟨[⟨"c1", "t", [⟨0, "user", "hi", 1⟩], "m1", none, 0, 1⟩],
           none, [], [], [], false, false, 1⟩
          "c1" "assistant" "ok" 3)
      ∧ MessagesAppendOnly
        ⟨[⟨"c1", "t", [⟨0, "user", "hi", 1⟩], "m1", none, 0, 1⟩],
         none, [], [], [], false, false, 1⟩
        (updateConversation
          ⟨[⟨"c1", "t", [⟨0, "user", "hi", 1⟩], "m1", none, 0, 1⟩],
           none, [], [], [], false, false, 1⟩
          "c1" ⟨none, some "t2", none, none, none, none, none⟩ 3) := by
  have h := c7_append_only
    ⟨[⟨"c1", "t", [⟨0, "user", "hi", 1⟩], "m1", none, 0, 1⟩],
     none, [], [], [], false, false, 1⟩
    (by decide)
    "t" "m1" none "c2" 3 "c1" ⟨none, some "t2", none, none, none, none, none⟩ "c1" []
    none false "c1" "c1" "assistant" "ok"
    ⟨"m1", "n", ModelType.OpenAI, "k", none, "g", none, none, true⟩ "m2" "m1"
    ⟨none, none, none, none, none, none, none, none, none⟩
    ⟨"p1", "n", "a", "s"⟩ "p2" "p1" ⟨none, none, none, none⟩ false "c1" 0 "z"
  exact ⟨h.2.2.2.2.2.2.2.2.2.1, h.2.1 rfl rfl⟩

/-! ## C8: preset priming sequence -/

theorem reverse_find_user_after_append (msgs : List Message) (u : Message)
    (hu : (u.role == "user") = true) :
    ((msgs ++ [u]).reverse).find? (fun m => m.role == "user") = some u := by
  rw [List.reverse_append]
  rw [show ([u] : List Message).reverse = [u] from rfl, List.singleton_append]
  simp [List.find?_cons, hu]

theorem ssw_ok (s : AppState) (cid : String) (model : ModelConfig) (conv : Conversation)
    (um : Message) (a : String) (rest : List AdapterResult) (now : Nat)
    (hfind : s.conversations.find? (fun c => c.id == cid) = some conv)
    (hlast : conv.messages.reverse.find? (fun m => m.role == "user") = some um)
    (hkey : jsTrim model.apiKey ≠ "") :
    sendSingleMessageAndWait s cid model (.ok a :: rest) now
      = .ok (addMessage s cid "assistant" a now, [.apiCall, .msg "assistant" a], rest) := by
  have hkbf : (jsTrim model.apiKey == "") = false := beq_eq_false_iff_ne.mpr hkey
  simp only [sendSingleMessageAndWait, hfind, hlast, hkbf, Bool.false_eq_true, if_false,
    List.headD_cons, List.tail_cons]

/-- C8: `initializeWithPreset` on a conversation present in the store, with a
model whose API key is non-blank and an adapter answering each call, sends
zero, one, or two priming messages as user-role turns in a fixed order — the
armoring prompt first iff it is non-blank after trimming, then the system
prompt iff it is non-blank after trimming — with each priming user turn
followed by exactly one provider API call and its assistant reply before the
next priming message; a null preset sends nothing. -/
theorem c8_priming_sequence (s : AppState) (conversation : Conversation) (model : ModelConfig)
    (p : Preset) (a b : String) (now : Nat) (conv0 : Conversation)
    (hfind : s.conversations.find? (fun c => c.id == conversation.id) = some conv0)
    (hkey : jsTrim model.apiKey ≠ "") :
    (initializeWithPreset s conversation model none [.ok a, .ok b] now).2 = []
      ∧ (initializeWithPreset s conversation model (some p) [.ok a, .ok b] now).2
        = (if jsTrim p.armoringPrompt ≠ "" then
             [.msg "user" p.armoringPrompt, .apiCall, .msg "assistant" a]
               ++ (if jsTrim p.systemPrompt ≠ "" then
                     [.msg "user" p.systemPrompt, .apiCall, .msg "assistant" b]
                   else [])
           else if jsTrim p.systemPrompt ≠ "" then
             [.msg "user" p.systemPrompt, .apiCall, .msg "assistant" a]
           else []) := by
  have hkbf : (jsTrim model.apiKey == "") = false := beq_eq_false_iff_ne.mpr hkey
  constructor
  · rfl
  · have hfind0 : (setCreating s true).conversations.find? (fun c => c.id == conversation.id)
        = some conv0 := hfind
    by_cases harm : jsTrim p.armoringPrompt ≠ ""
    · have h1 := find?_addMessage_some (setCreating s true) conversation.id "user"
        p.armoringPrompt now conv0 hfind0
      have hlast1 := reverse_find_user_after_append conv0.messages
        ⟨(setCreating s true).nextId, "user", p.armoringPrompt, now⟩ rfl
      have hssw1 := ssw_ok
        (addMessage (setCreating s true) conversation.id "user" p.armoringPrompt now)
        conversation.id model _ _ a [.ok b] now h1 hlast1 hkey
      by_cases hsys : jsTrim p.systemPrompt ≠ ""
      · obtain ⟨conv2, h2⟩ : ∃ c,
            (addMessage
              (addMessage (setCreating s true) conversation.id "user" p.armoringPrompt now)
              conversation.id "assistant" a now).conversations.find?
                (fun c => c.id == conversation.id) = some c :=
          ⟨_, find?_addMessage_some
            (addMessage (setCreating s true) conversation.id "user" p.armoringPrompt now)
            conversation.id "assistant" a now _ h1⟩
        have h3 := find?_addMessage_some
          (addMessage
            (addMessage (setCreating s true) conversation.id "user" p.armoringPrompt now)
            conversation.id "assistant" a now)
          conversation.id "user" p.systemPrompt now conv2 h2
        have hlast3 := reverse_find_user_after_append conv2.messages
          ⟨(addMessage
              (addMessage (setCreating s true) conversation.id "user" p.armoringPrompt now)
              conversation.id "assistant" a now).nextId, "user", p.systemPrompt, now⟩ rfl
        have hssw2 := ssw_ok
          (addMessage
            (addMessage
              (addMessage (setCreating s true) conversation.id "user" p.armoringPrompt now)
              conversation.id "assistant" a now)
            conversation.id "user" p.systemPrompt now)
          conversation.id model _ _ b [] now h3 hlast3 hkey
        simp only [initializeWithPreset, if_pos harm, hkbf, Bool.false_eq_true, if_false,
          hssw1, if_pos hsys, hssw2]
        simp
      · simp only [initializeWithPreset, if_pos harm, hkbf, Bool.false_eq_true, if_false,
          hssw1, if_neg hsys]
        simp
    · by_cases hsys : jsTrim p.systemPrompt ≠ ""
      · have h1 := find?_addMessage_some (setCreating s true) conversation.id "user"
          p.systemPrompt now conv0 hfind0
        have hlast1 := reverse_find_user_after_append conv0.messages
          ⟨(setCreating s true).nextId, "user", p.systemPrompt, now⟩ rfl
        have hssw1 := ssw_ok
          (addMessage (setCreating s true) conversation.id "user" p.systemPrompt now)
          conversation.id model _ _ a [.ok b] now h1 hlast1 hkey
        simp only [initializeWithPreset, if_neg harm, if_pos hsys, hssw1]
        simp
      · simp [initializeWithPreset, if_neg harm, if_neg hsys]

/-- C8 witness: with a non-blank armoring prompt and system prompt the trace
is exactly two user priming turns, each followed by one API call and the
assistant reply; a null preset yields an empty trace. -/
theorem c8_witness :
    (initializeWithPreset
        ⟨[⟨"c1", "t", [], "m1", none, 0, 0⟩], none, [], [], [], false, false, 0⟩
        ⟨"c1", "t", [], "m1", none, 0, 0⟩
        ⟨"m1", "n", ModelType.OpenAI, "k", none, "g", none, none, true⟩
        (some ⟨"p1", "n", "ARM", "SYS"⟩) [.ok "r1", .ok "r2"] 7).2
      = [.msg "user" "ARM", .apiCall, .msg "assistant" "r1",
         .msg "user" "SYS", .apiCall, .msg "assistant" "r2"]
      ∧ (initializeWithPreset
        ⟨[⟨"c1", "t", [], "m1", none, 0, 0⟩], none, [], [], [], false, false, 0⟩
        ⟨"c1", "t", [], "m1", none, 0, 0⟩
        ⟨"m1", "n", ModelType.OpenAI, "k", none, "g", none, none, true⟩
        none [.ok "r1", .ok "r2"] 7).2 = [] := by
  have h := c8_priming_sequence
    ⟨[⟨"c1", "t", [], "m1", none, 0, 0⟩], none, [], [], [], false, false, 0⟩
    ⟨"c1", "t", [], "m1", none, 0, 0⟩
    ⟨"m1", "n", ModelType.OpenAI, "k", none, "g", none, none, true⟩
    ⟨"p1", "n", "ARM", "SYS"⟩ "r1" "r2" 7 ⟨"c1", "t", [], "m1", none, 0, 0⟩
    (by decide) (by decide)
  refine ⟨?_, h.1⟩
  rw [h.2]
  decide

end Dpbachat
